import Mathlib

/-!
# Verification of the DMind SDK protocol engine

A shallow embedding of the DMind SDK core (protocol extractor, schema
validator, developer-prompt gate, OpenAI interop converter, streaming SSE
accumulator and the run loop), translated from the TypeScript sources,
together with proofs of the specification's testable properties.

Platform collaborators (the JavaScript `JSON.parse`, `JSON.stringify` and
`RegExp.test` primitives) are modelled as explicit function parameters; the
embedding is otherwise a direct transcription of the source.  JavaScript
numbers are modelled as rationals (no claim depends on float rounding or on
NaN), and JavaScript strings/objects as Lean strings and ordered association
lists.
-/

namespace DMindSDK

/-- JSON / JavaScript runtime values (the `any` universe the SDK moves
through `JSON.parse`, tool arguments and tool results). -/
inductive Json where
  | null
  | bool (b : Bool)
  | num (q : Rat)
  | str (s : String)
  | arr (elems : List Json)
  | obj (fields : List (String × Json))

mutual

/-- Structural equality on `Json` values (JavaScript deep equality on JSON
data). -/
def Json.beq : Json → Json → Bool
  | .null, .null => true
  | .bool a, .bool b => a == b
  | .num a, .num b => a == b
  | .str a, .str b => a == b
  | .arr a, .arr b => Json.beqList a b
  | .obj a, .obj b => Json.beqObj a b
  | _, _ => false

/-- Elementwise equality on JSON arrays. -/
def Json.beqList : List Json → List Json → Bool
  | [], [] => true
  | x :: xs, y :: ys => Json.beq x y && Json.beqList xs ys
  | _, _ => false

/-- Fieldwise equality on JSON objects. -/
def Json.beqObj : List (String × Json) → List (String × Json) → Bool
  | [], [] => true
  | (k1, v1) :: xs, (k2, v2) :: ys => k1 == k2 && Json.beq v1 v2 && Json.beqObj xs ys
  | _, _ => false

end

mutual

theorem Json.eq_of_beq : ∀ {a b : Json}, Json.beq a b = true → a = b
  | .null, .null, _ => rfl
  | .bool _, .bool _, h => by
    simpa [Json.beq] using congrArg Json.bool (by simpa [Json.beq] using h : _)
  | .num _, .num _, h => congrArg Json.num (by simpa [Json.beq] using h)
  | .str _, .str _, h => congrArg Json.str (by simpa [Json.beq] using h)
  | .arr _, .arr _, h => congrArg Json.arr (Json.eqList_of_beq (by simpa [Json.beq] using h))
  | .obj _, .obj _, h => congrArg Json.obj (Json.eqObj_of_beq (by simpa [Json.beq] using h))

theorem Json.eqList_of_beq : ∀ {a b : List Json}, Json.beqList a b = true → a = b
  | [], [], _ => rfl
  | x :: xs, y :: ys, h => by
    have h' := h
    simp only [Json.beqList, Bool.and_eq_true] at h'
    exact congrArg₂ List.cons (Json.eq_of_beq h'.1) (Json.eqList_of_beq h'.2)

theorem Json.eqObj_of_beq : ∀ {a b : List (String × Json)}, Json.beqObj a b = true → a = b
  | [], [], _ => rfl
  | (k1, v1) :: xs, (k2, v2) :: ys, h => by
    have h' := h
    simp only [Json.beqObj, Bool.and_eq_true, beq_iff_eq] at h'
    have hk : k1 = k2 := h'.1.1
    have hv : v1 = v2 := Json.eq_of_beq h'.1.2
    have ht : xs = ys := Json.eqObj_of_beq h'.2
    simp [hk, hv, ht]

end

mutual

theorem Json.beq_refl : ∀ a : Json, Json.beq a a = true
  | .null => rfl
  | .bool b => by simp [Json.beq]
  | .num q => by simp [Json.beq]
  | .str s => by simp [Json.beq]
  | .arr a => by simpa [Json.beq] using Json.beqList_refl a
  | .obj o => by simpa [Json.beq] using Json.beqObj_refl o

theorem Json.beqList_refl : ∀ a : List Json, Json.beqList a a = true
  | [] => rfl
  | x :: xs => by
    simp only [Json.beqList, Bool.and_eq_true]
    exact ⟨Json.beq_refl x, Json.beqList_refl xs⟩

theorem Json.beqObj_refl : ∀ a : List (String × Json), Json.beqObj a a = true
  | [] => rfl
  | (k, v) :: xs => by
    simp [Json.beqObj, Json.beq_refl v, Json.beqObj_refl xs]

end

instance : DecidableEq Json := fun a b =>
  if h : Json.beq a b = true then .isTrue (Json.eq_of_beq h)
  else .isFalse fun he => h (he ▸ Json.beq_refl a)

/-- Tool argument records (`Record<string, any>`): ordered association lists,
mirroring JavaScript object insertion order. -/
abbrev Obj := List (String × Json)

/-- Abstract model of the platform `JSON.parse`: `none` models a thrown
`SyntaxError`. -/
abbrev JsonParse := String → Option Json

/-- Abstract model of the platform `JSON.stringify` (used only to fill the
diagnostic `raw` fields of interop results). -/
abbrev JsonStringify := Json → String

/-! ## Character and string primitives (JS semantics) -/

/-- The `{` character (written by code point to keep string literals free of
braces). -/
def braceOpen : Char := Char.ofNat 123

/-- The `}` character. -/
def braceClose : Char := Char.ofNat 125

/-- Whitespace characters recognised by JavaScript `trim` / `\s` on the
inputs this SDK handles (ASCII range). -/
def wsChar (c : Char) : Bool :=
  c == ' ' || c == '\t' || c == '\n' || c == '\r' ||
    c == Char.ofNat 11 || c == Char.ofNat 12

/-- Drop leading whitespace. -/
def trimLeftC (s : List Char) : List Char := s.dropWhile wsChar

/-- Drop trailing whitespace. -/
def trimRightC (s : List Char) : List Char := (s.reverse.dropWhile wsChar).reverse

/-- JavaScript `String.prototype.trim`. -/
def trimC (s : List Char) : List Char := trimRightC (trimLeftC s)

/-- `trim` lifted to `String`. -/
def jsTrim (s : String) : String := ⟨trimC s.data⟩

/-- Find the first occurrence of `pat` in `s`; returns the text before the
occurrence and the text after it (JavaScript `indexOf` plus splitting). -/
def splitSub (pat : List Char) : List Char → Option (List Char × List Char)
  | [] => if pat.isPrefixOf ([] : List Char) then some ([], []) else none
  | c :: rest =>
    if pat.isPrefixOf (c :: rest) then some ([], (c :: rest).drop pat.length)
    else (splitSub pat rest).map fun pr => (c :: pr.1, pr.2)

/-- JavaScript `String.prototype.includes`. -/
def containsSub (pat s : List Char) : Bool := (splitSub pat s).isSome

/-- `includes` lifted to `String`. -/
def jsIncludes (pat s : String) : Bool := containsSub pat.data s.data

/-- JavaScript `String.prototype.replace(pattern, "")` with a fixed string
pattern: removes the first occurrence (or leaves the string unchanged). -/
def replaceFirstC (pat s : List Char) : List Char :=
  match splitSub pat s with
  | some (pre, post) => pre ++ post
  | none => s

/-- JavaScript `String.prototype.replace(/pat/g, repl)` for a fixed string
pattern: left-to-right non-overlapping replacement, continuing after each
replacement (the replacement text is not rescanned).  `fuel` bounds the
recursion; `s.length + 1` is always sufficient for a nonempty pattern. -/
def replaceAllSubAux (pat repl : List Char) : Nat → List Char → List Char
  | 0, s => s
  | fuel + 1, s =>
    match splitSub pat s with
    | none => s
    | some (pre, post) => pre ++ repl ++ replaceAllSubAux pat repl fuel post

/-- Global string replacement with canonical fuel. -/
def replaceAllSub (pat repl s : List Char) : List Char :=
  replaceAllSubAux pat repl (s.length + 1) s

/-! ## Error vocabulary (src/src/errors.ts) -/

/-- The closed error taxonomy `SDKErrorCode`. -/
inductive SDKErrorCode where
  | E_NO_WRAPPER
  | E_WRONG_PROTOCOL
  | E_JSON_INVALID
  | E_TOOL_UNKNOWN
  | E_PARAM_MISSING
  | E_PARAM_FORBIDDEN
  | E_PARAM_INVALID
  | E_INVOKE_COUNT
  | E_RUNTIME
deriving DecidableEq

/-- `ValidationIssue` (src/src/errors.ts). -/
structure ValidationIssue where
  code : SDKErrorCode
  message : String
deriving DecidableEq

/-! ## Result types (src/src/types.ts) -/

/-- `"official" | "legacy"` protocol tag on a tool call. -/
inductive Protocol where
  | official
  | legacy
deriving DecidableEq

/-- `ProtocolMode` (src/src/types.ts). -/
inductive ProtocolMode where
  | official
  | dual
  | legacy
deriving DecidableEq

/-- `ParsedResult` — the closed `text` / `tool_call` / `parse_error`
variant. -/
inductive ParsedResult where
  | text (text raw : String)
  | toolCall (tool : String) (args : Obj) (raw : String) (protocol : Protocol)
  | parseError (code : SDKErrorCode) (message raw : String)
deriving DecidableEq

/-- `makeParseError` (src/src/utils.ts). -/
def makeParseError (code : SDKErrorCode) (message raw : String) : ParsedResult :=
  .parseError code message raw

/-- `ParseOptions` (src/src/types.ts); the allow-list `Set<string>` is
modelled as a list with membership. -/
structure ParseOptions where
  allowedTools : Option (List String) := none

/-- Whether a `ParsedResult` is the `tool_call` variant (the
`parsed.type === "tool_call"` test). -/
def ParsedResult.isToolCallB : ParsedResult → Bool
  | .toolCall _ _ _ _ => true
  | _ => false

/-! ## Wire-format constants

Modelled from the spec: `src/src/constants.ts` is not among the provided
sources; the marker values follow the spec's §6 bit-exact wire format, and
the official/legacy block values are corroborated by the literal regexes in
src/src/parser.ts. -/

/-- `OFFICIAL_START`. -/
def OFFICIAL_START : String := "<start_function_call>"

/-- `OFFICIAL_END`. -/
def OFFICIAL_END : String := "<end_function_call>"

/-- `LEGACY_START`. -/
def LEGACY_START : String := "<function_calls>"

/-- `LEGACY_END`. -/
def LEGACY_END : String := "</function_calls>"

/-! ## Regex block matching (src/src/parser.ts)

`OFFICIAL_BLOCK_RE` and `LEGACY_BLOCK_RE` are `start([\s\S]*?)end` patterns
used with `matchAll`: the engine finds the leftmost start marker, lazily
extends the payload to the first end marker after it, and resumes scanning
after the match.  `matchBlocksAux` transcribes that behaviour; `fuel`
bounds the recursion and `s.length + 1` is always sufficient because every
step consumes at least the nonempty markers. -/

/-- All matches of `startM([\s\S]*?)endM` as (full match, payload) pairs. -/
def matchBlocksAux (startM endM : List Char) : Nat → List Char → List (List Char × List Char)
  | 0, _ => []
  | fuel + 1, s =>
    match splitSub startM s with
    | none => []
    | some (_, afterStart) =>
      match splitSub endM afterStart with
      | none => []
      | some (payload, afterEnd) =>
        (startM ++ payload ++ endM, payload) :: matchBlocksAux startM endM fuel afterEnd

/-- Block matching with canonical fuel. -/
def matchBlocks (startM endM s : List Char) : List (List Char × List Char) :=
  matchBlocksAux startM endM (s.length + 1) s

/-! ## Official payload parsing (src/src/parser.ts, `parseOfficialPayload`) -/

/-- `parseOfficialPayload`: decode `call:NAME{json}` inside one official
wrapper.  (`tool` is kept as a char list internally and converted to
`String` at use sites; `body.indexOf("{")` becomes a take/drop split at the
first brace, with the no-brace case signalled by an empty remainder.) -/
def parseOfficialPayload (jp : JsonParse) (payload : List Char) (raw : String)
    (options : ParseOptions) : ParsedResult :=
  let trimmed := trimC payload
  if !("call:".data.isPrefixOf trimmed) then
    makeParseError .E_JSON_INVALID "Official function call must start with `call:`." raw
  else
    let body := trimmed.drop "call:".data.length
    let namePart := body.takeWhile (fun c => c != braceOpen)
    let jsonPart := body.dropWhile (fun c => c != braceOpen)
    if jsonPart.isEmpty then
      makeParseError .E_JSON_INVALID "Official function call payload is missing JSON args." raw
    else
      let tool : String := ⟨trimC namePart⟩
      let argsText : String := ⟨trimC jsonPart⟩
      if tool.data.isEmpty then
        makeParseError .E_PARAM_MISSING "Tool name is missing." raw
      else
        let allowedOk := match options.allowedTools with
          | some ts => ts.contains tool
          | none => true
        if !allowedOk then
          makeParseError .E_TOOL_UNKNOWN s!"Unknown tool: {tool}." raw
        else
          match jp argsText with
          | none => makeParseError .E_JSON_INVALID "Failed to parse tool args JSON." raw
          | some (.obj fields) => .toolCall tool fields raw .official
          | some _ => makeParseError .E_JSON_INVALID "Tool args must be a JSON object." raw

/-- `parseOfficial`: recognise exactly one official wrapper block. -/
def parseOfficial (jp : JsonParse) (raw : String) (options : ParseOptions) : ParsedResult :=
  match matchBlocks OFFICIAL_START.data OFFICIAL_END.data raw.data with
  | [] =>
    if jsIncludes "call:" raw || jsIncludes OFFICIAL_START raw || jsIncludes OFFICIAL_END raw then
      makeParseError .E_NO_WRAPPER
        "Function call content detected but official wrapper is missing." raw
    else .text raw raw
  | [(m0, payload)] =>
    let outside := trimC (replaceFirstC m0 raw.data)
    if outside.length > 0 then
      makeParseError .E_WRONG_PROTOCOL
        "Official function-call output cannot mix wrapper with extra text." raw
    else parseOfficialPayload jp payload raw options
  | ms =>
    let n := ms.length
    makeParseError .E_INVOKE_COUNT
      s!"Official mode expects exactly 1 function call block, got {n}." raw

/-! ## Legacy element matching (src/src/parser.ts)

`LEGACY_INVOKE_RE` and `LEGACY_PARAM_RE` are
`<tag\s+name=(?:"([^"]+)"|'([^']+)')\s*>([\s\S]*?)</tag>` patterns used with
`matchAll`.  `parseElemHead` transcribes the part after the literal tag:
one-or-more whitespace, `name=`, a double- or single-quoted nonempty name,
optional whitespace, `>`.  The matcher finds each occurrence of the literal
open tag; on a failed attempt the engine resumes at the next occurrence, on
success it resumes after the close tag. -/

/-- Scan a quoted attribute value: content up to the next `q`, which must be
nonempty (the regex `[^q]+`). -/
def parseQuoted (q : Char) (s : List Char) : Option (List Char × List Char) :=
  match splitSub [q] s with
  | none => none
  | some (content, rest) => if content.isEmpty then none else some (content, rest)

/-- Scan `\s+name=("NAME"|'NAME')\s*>` and return the name and the remainder. -/
def parseElemHead (s : List Char) : Option (List Char × List Char) :=
  let afterWs := s.dropWhile wsChar
  if s.length == afterWs.length then none
  else if "name=".data.isPrefixOf afterWs then
    match afterWs.drop "name=".data.length with
    | [] => none
    | q :: rest =>
      if q == '"' || q == '\'' then
        match parseQuoted q rest with
        | none => none
        | some (name, rest2) =>
          match (rest2.dropWhile wsChar) with
          | '>' :: rest3 => some (name, rest3)
          | _ => none
      else none
  else none

/-- All matches of the invoke/parameter element regex for a given literal
open tag and close tag, as (attribute name, lazy body) pairs. -/
def matchElemsAux (openTag closeTag : List Char) : Nat → List Char → List (List Char × List Char)
  | 0, _ => []
  | fuel + 1, s =>
    match splitSub openTag s with
    | none => []
    | some (_, afterTag) =>
      match parseElemHead afterTag with
      | none => matchElemsAux openTag closeTag fuel afterTag
      | some (name, afterHead) =>
        match splitSub closeTag afterHead with
        | none => matchElemsAux openTag closeTag fuel afterTag
        | some (body, afterClose) => (name, body) :: matchElemsAux openTag closeTag fuel afterClose

/-- Element matching with canonical fuel. -/
def matchElems (openTag closeTag s : List Char) : List (List Char × List Char) :=
  matchElemsAux openTag closeTag (s.length + 1) s

/-! ## Loose XML value coercion (src/src/utils.ts) -/

/-- `decodeXml`: the source's five chained global replacements, in order. -/
def decodeXml (value : List Char) : List Char :=
  replaceAllSub "&amp;".data "&".data
    (replaceAllSub "&apos;".data "'".data
      (replaceAllSub "&quot;".data "\"".data
        (replaceAllSub "&gt;".data ">".data
          (replaceAllSub "&lt;".data "<".data value))))

/-- Decimal value of a digit string. -/
def digitsVal (s : List Char) : Nat :=
  s.foldl (fun acc c => acc * 10 + (c.toNat - 48)) 0

/-- The numeric-literal test and conversion `/^-?\d+(\.\d+)?$/` plus
`Number(value)` (JavaScript float rounding is not modelled; no claim depends
on it). -/
def parseNumLit (s : List Char) : Option Rat :=
  let signed := match s with
    | '-' :: t => some ((-1 : Rat), t)
    | _ => some ((1 : Rat), s)
  match signed with
  | some (sign, t) =>
    let intPart := t.takeWhile Char.isDigit
    let rest := t.dropWhile Char.isDigit
    if intPart.isEmpty then none
    else
      match rest with
      | [] => some (sign * (digitsVal intPart : Rat))
      | '.' :: frac =>
        if frac.isEmpty || !(frac.all Char.isDigit) then none
        else some (sign * ((digitsVal intPart : Rat) +
          (digitsVal frac : Rat) / ((10 : Rat) ^ frac.length)))
      | _ => none
  | none => none

/-- `parseLooseXmlValue`: entity-decode, trim, recognise boolean/null/number
literals, attempt embedded JSON for brace/bracket-shaped text, fall back to
the raw string. -/
def parseLooseXmlValue (jp : JsonParse) (rawV : List Char) : Json :=
  let value := trimC (decodeXml rawV)
  if value.isEmpty then .str ""
  else if value == "true".data then .bool true
  else if value == "false".data then .bool false
  else if value == "null".data then .null
  else
    match parseNumLit value with
    | some q => .num q
    | none =>
      if (value.head? == some braceOpen && value.getLast? == some braceClose) ||
          (value.head? == some '[' && value.getLast? == some ']') then
        match jp ⟨value⟩ with
        | some j => j
        | none => .str ⟨value⟩
      else .str ⟨value⟩

/-! ## Legacy payload parsing (src/src/parser.ts) -/

/-- JavaScript `args[key] = v`: overwrite an existing key in place, append a
new key. -/
def objUpsert (o : Obj) (k : String) (v : Json) : Obj :=
  if (o.lookup k).isSome then
    o.map fun kv => if kv.1 == k then (kv.1, v) else kv
  else o ++ [(k, v)]

/-- `parseLegacyPayload`: exactly one invoke node, tool-name and allow-list
checks, then parameter collection with loose value coercion (blank keys
skipped). -/
def parseLegacyPayload (jp : JsonParse) (payload : List Char) (raw : String)
    (options : ParseOptions) : ParsedResult :=
  match matchElems "<invoke".data "</invoke>".data payload with
  | [(nameRaw, invokeBody)] =>
    let tool : String := ⟨trimC nameRaw⟩
    if tool.data.isEmpty then
      makeParseError .E_PARAM_MISSING "Tool name is missing." raw
    else
      let allowedOk := match options.allowedTools with
        | some ts => ts.contains tool
        | none => true
      if !allowedOk then
        makeParseError .E_TOOL_UNKNOWN s!"Unknown tool: {tool}." raw
      else
        let args := (matchElems "<parameter".data "</parameter>".data invokeBody).foldl
          (fun acc pm =>
            let key : String := ⟨trimC pm.1⟩
            if key.data.isEmpty then acc
            else objUpsert acc key (parseLooseXmlValue jp pm.2)) []
        .toolCall tool args raw .legacy
  | ms =>
    let n := ms.length
    makeParseError .E_INVOKE_COUNT
      s!"Legacy payload must contain exactly 1 invoke node, got {n}." raw

/-- `parseLegacy`: recognise exactly one legacy `<function_calls>` block. -/
def parseLegacy (jp : JsonParse) (raw : String) (options : ParseOptions) : ParsedResult :=
  match matchBlocks LEGACY_START.data LEGACY_END.data raw.data with
  | [] =>
    if jsIncludes LEGACY_START raw || jsIncludes LEGACY_END raw || jsIncludes "<invoke" raw then
      makeParseError .E_NO_WRAPPER
        "Legacy function call tags detected but wrapper is incomplete." raw
    else .text raw raw
  | [(m0, payload)] =>
    let outside := trimC (replaceFirstC m0 raw.data)
    if outside.length > 0 then
      makeParseError .E_WRONG_PROTOCOL
        "Legacy function-call output cannot mix wrapper with extra text." raw
    else parseLegacyPayload jp payload raw options
  | ms =>
    let n := ms.length
    makeParseError .E_INVOKE_COUNT
      s!"Legacy mode expects exactly 1 function_calls block, got {n}." raw

/-- `hasLegacyTags`. -/
def hasLegacyTags (raw : String) : Bool :=
  jsIncludes LEGACY_START raw || jsIncludes LEGACY_END raw || jsIncludes "<invoke" raw

/-- `hasOfficialTags`. -/
def hasOfficialTags (raw : String) : Bool :=
  jsIncludes OFFICIAL_START raw || jsIncludes OFFICIAL_END raw || jsIncludes "call:" raw

/-- The `candidate.type === "parse_error" && candidate.code !== "E_NO_WRAPPER"`
test of the dual branch. -/
def ParsedResult.isHardError : ParsedResult → Bool
  | .parseError c _ _ => c != .E_NO_WRAPPER
  | _ => false

/-- `parseAssistantOutput`: the mode dispatcher. -/
def parseAssistantOutput (jp : JsonParse) (raw : String) (mode : ProtocolMode)
    (options : ParseOptions) : ParsedResult :=
  match mode with
  | .official =>
    if hasLegacyTags raw then
      makeParseError .E_WRONG_PROTOCOL "Legacy protocol tags detected in official mode." raw
    else parseOfficial jp raw options
  | .legacy =>
    if hasOfficialTags raw then
      makeParseError .E_WRONG_PROTOCOL "Official protocol tags detected in legacy mode." raw
    else parseLegacy jp raw options
  | .dual =>
    let officialCandidate := parseOfficial jp raw options
    if officialCandidate.isToolCallB then officialCandidate
    else if officialCandidate.isHardError then officialCandidate
    else
      let legacyCandidate := parseLegacy jp raw options
      if legacyCandidate.isToolCallB then legacyCandidate
      else if legacyCandidate.isHardError then legacyCandidate
      else if hasOfficialTags raw || hasLegacyTags raw then
        makeParseError .E_NO_WRAPPER
          "Function call-like content detected but no valid wrapper found." raw
      else .text raw raw

/-! ## Spec-side dual-mode dispatcher

These definitions follow the spec's words for claim C3 ("dual tries official
first; only a no-wrapper outcome falls through to legacy; any other error is
surfaced immediately; if neither wrapper is present, `E_NO_WRAPPER` when
either encoding's markers occur, plain text otherwise"), to be compared with
the source-derived `parseAssistantOutput`. -/

/-- Spec wording: the outcome when neither encoding produced a wrapper. -/
def dualNoWrapperOutcome (raw : String) : ParsedResult :=
  if hasOfficialTags raw || hasLegacyTags raw then
    makeParseError .E_NO_WRAPPER
      "Function call-like content detected but no valid wrapper found." raw
  else .text raw raw

/-- Spec wording: the legacy attempt made only after the official attempt
found no wrapper. -/
def dualLegacyFallbackSpec (jp : JsonParse) (raw : String) (options : ParseOptions) :
    ParsedResult :=
  match parseLegacy jp raw options with
  | .toolCall t a r p => .toolCall t a r p
  | .parseError c m r =>
    if c = .E_NO_WRAPPER then dualNoWrapperOutcome raw else .parseError c m r
  | .text _ _ => dualNoWrapperOutcome raw

/-- Spec wording: official is tried first; a valid official block wins; a
non-"no wrapper" official failure is surfaced immediately; otherwise legacy
is attempted. -/
def dualModeSpec (jp : JsonParse) (raw : String) (options : ParseOptions) : ParsedResult :=
  match parseOfficial jp raw options with
  | .toolCall t a r p => .toolCall t a r p
  | .parseError c m r =>
    if c = .E_NO_WRAPPER then dualLegacyFallbackSpec jp raw options else .parseError c m r
  | .text _ _ => dualLegacyFallbackSpec jp raw options

/-- Claim C3: in dual mode the source dispatcher coincides with the spec's
description: official first (a valid official block wins without consulting
legacy), official-side failures other than "no wrapper present" returned
immediately, legacy tried only on no-wrapper, and when neither wrapper is
present the result is `E_NO_WRAPPER` exactly when either encoding's marker
substrings occur in the text, plain text otherwise. -/
theorem dual_mode_matches_spec (jp : JsonParse) (raw : String) (options : ParseOptions) :
    parseAssistantOutput jp raw .dual options = dualModeSpec jp raw options := by
  unfold parseAssistantOutput dualModeSpec dualLegacyFallbackSpec dualNoWrapperOutcome
  cases hof : parseOfficial jp raw options with
  | toolCall t a r p => simp [ParsedResult.isToolCallB, ParsedResult.isHardError]
  | text t r =>
    simp only [ParsedResult.isToolCallB, ParsedResult.isHardError, if_false, Bool.false_eq_true]
    cases hlg : parseLegacy jp raw options with
    | toolCall t' a' r' p' => simp [ParsedResult.isToolCallB, ParsedResult.isHardError]
    | text t' r' => simp [ParsedResult.isToolCallB, ParsedResult.isHardError]
    | parseError c' m' r' =>
      by_cases hc : c' = SDKErrorCode.E_NO_WRAPPER <;>
        simp [ParsedResult.isToolCallB, ParsedResult.isHardError, hc]
  | parseError c m r =>
    by_cases hc : c = SDKErrorCode.E_NO_WRAPPER
    · subst hc
      simp only [ParsedResult.isToolCallB, ParsedResult.isHardError, bne_self_eq_false,
        if_false, if_true, reduceIte]
      cases hlg : parseLegacy jp raw options with
      | toolCall t' a' r' p' => simp [ParsedResult.isToolCallB, ParsedResult.isHardError]
      | text t' r' => simp [ParsedResult.isToolCallB, ParsedResult.isHardError]
      | parseError c' m' r' =>
        by_cases hc' : c' = SDKErrorCode.E_NO_WRAPPER <;>
          simp [ParsedResult.isToolCallB, ParsedResult.isHardError, hc']
    · simp [ParsedResult.isToolCallB, ParsedResult.isHardError, hc]

/-- Claim C4: in official mode, any input containing a legacy marker
substring (`<function_calls>`, `</function_calls>` or `<invoke`) yields
`E_WRONG_PROTOCOL`; the result is independent of the JSON parser, so no
JSON parsing of the input is attempted. -/
theorem official_mode_rejects_legacy_markers (jp : JsonParse) (raw : String)
    (options : ParseOptions)
    (h : jsIncludes LEGACY_START raw = true ∨ jsIncludes LEGACY_END raw = true ∨
      jsIncludes "<invoke" raw = true) :
    parseAssistantOutput jp raw .official options =
      makeParseError .E_WRONG_PROTOCOL "Legacy protocol tags detected in official mode." raw := by
  have hl : hasLegacyTags raw = true := by
    unfold hasLegacyTags
    rcases h with h | h | h <;> simp [h]
  simp [parseAssistantOutput, hl]

/-- Concrete instance of `official_mode_rejects_legacy_markers`. -/
theorem official_mode_rejects_legacy_markers_witness :
    jsIncludes "<invoke" "hello <invoke" = true ∧
    parseAssistantOutput (fun _ => none) "hello <invoke" .official {} =
      makeParseError .E_WRONG_PROTOCOL "Legacy protocol tags detected in official mode."
        "hello <invoke" :=
  ⟨by decide,
    official_mode_rejects_legacy_markers (fun _ => none) "hello <invoke" {}
      (Or.inr (Or.inr (by decide)))⟩

/-! ## Round-trip of well-formed official inputs (claim C1) -/

theorem isPrefixOf_append_self (l r : List Char) : l.isPrefixOf (l ++ r) = true := by
  induction l with
  | nil => simp [List.isPrefixOf]
  | cons c t ih => simp [List.isPrefixOf, ih]

theorem takeWhile_append_not {p : Char → Bool} (l : List Char) (c : Char) (r : List Char)
    (h : ∀ x ∈ l, p x = true) (hc : p c = false) : (l ++ c :: r).takeWhile p = l := by
  induction l with
  | nil => simp [List.takeWhile, hc]
  | cons a t ih =>
    simp only [List.cons_append, List.takeWhile]
    rw [h a (by simp)]
    simp [ih (fun x hx => h x (by simp [hx]))]

theorem dropWhile_append_not {p : Char → Bool} (l : List Char) (c : Char) (r : List Char)
    (h : ∀ x ∈ l, p x = true) (hc : p c = false) : (l ++ c :: r).dropWhile p = c :: r := by
  induction l with
  | nil => simp [List.dropWhile, hc]
  | cons a t ih =>
    simp only [List.cons_append, List.dropWhile]
    rw [h a (by simp)]
    exact ih (fun x hx => h x (by simp [hx]))

/-- Claim C1: every well-formed single official-wrapper input round-trips.
The hypotheses spell out well-formedness exactly as the claim does: the
input consists of exactly one start/end wrapper block (`hm`), nothing but
whitespace outside it (`hout`), a payload of shape `call:NAME{...}` (`hpay`,
`hnp`), a nonempty tool name (`hname`) that is allowed when an allow-list is
given (`hallow`), and an argument text that JSON-parses to an object
(`hjson`).  Extraction then returns a `tool_call` whose `tool` is the
pre-wrapper name, whose `args` is exactly the embedded JSON object, whose
`protocol` is official and whose `raw` is the original input. -/
theorem official_extraction_roundtrip (jp : JsonParse) (raw : String)
    (options : ParseOptions) (blk payload np tl : List Char) (fields : List (String × Json))
    (hm : matchBlocks OFFICIAL_START.data OFFICIAL_END.data raw.data = [(blk, payload)])
    (hout : trimC (replaceFirstC blk raw.data) = [])
    (hpay : trimC payload = "call:".data ++ (np ++ braceOpen :: tl))
    (hnp : ∀ c ∈ np, c ≠ braceOpen)
    (hname : trimC np ≠ [])
    (hallow : ∀ ts, options.allowedTools = some ts →
      ts.contains (String.mk (trimC np)) = true)
    (hjson : jp (String.mk (trimC (braceOpen :: tl))) = some (.obj fields)) :
    parseOfficial jp raw options = .toolCall ⟨trimC np⟩ fields raw .official := by
  have hpre : "call:".data.isPrefixOf (trimC payload) = true := by
    rw [hpay]; exact isPrefixOf_append_self _ _
  have hbody : (trimC payload).drop "call:".data.length = np ++ braceOpen :: tl := by
    rw [hpay]; exact List.drop_left _ _
  have hTake : (np ++ braceOpen :: tl).takeWhile (fun c => c != braceOpen) = np :=
    takeWhile_append_not np braceOpen tl
      (fun x hx => by simpa [bne_iff_ne] using hnp x hx) (by simp)
  have hDrop : (np ++ braceOpen :: tl).dropWhile (fun c => c != braceOpen) = braceOpen :: tl :=
    dropWhile_append_not np braceOpen tl
      (fun x hx => by simpa [bne_iff_ne] using hnp x hx) (by simp)
  have hne : (trimC np).isEmpty = false := by
    cases h : trimC np with
    | nil => exact absurd h hname
    | cons a t => rfl
  unfold parseOfficial
  rw [hm]
  simp only [hout, List.length_nil, gt_iff_lt, lt_self_iff_false, if_false]
  unfold parseOfficialPayload
  simp only [hpre, Bool.not_true, Bool.false_eq_true, if_false, hbody, hTake, hDrop,
    List.isEmpty_cons, hne]
  cases hopt : options.allowedTools with
  | none => simp [hjson]
  | some ts =>
    have hmem : String.mk (trimC np) ∈ ts := by simpa using hallow ts hopt
    simp [hallow ts hopt, hjson, hmem]

/-- A concrete `JSON.parse` fragment for the round-trip instance below. -/
def jsonParseEx : JsonParse := fun s =>
  if s = "\x7b\"symbol\":\"USDC\",\"chain\":\"ethereum\"\x7d" then
    some (.obj [("symbol", .str "USDC"), ("chain", .str "ethereum")])
  else none

/-- The spec's running example input. -/
def rawEx : String :=
  "<start_function_call>call:SEARCH_TOKEN\x7b\"symbol\":\"USDC\",\"chain\":\"ethereum\"\x7d<end_function_call>"

/-- Concrete instance of `official_extraction_roundtrip` at the spec's
running example. -/
theorem official_extraction_roundtrip_witness :
    parseOfficial jsonParseEx rawEx {} =
      .toolCall "SEARCH_TOKEN" [("symbol", .str "USDC"), ("chain", .str "ethereum")]
        rawEx .official :=
  official_extraction_roundtrip jsonParseEx rawEx {} rawEx.data
    "call:SEARCH_TOKEN\x7b\"symbol\":\"USDC\",\"chain\":\"ethereum\"\x7d".data
    "SEARCH_TOKEN".data "\"symbol\":\"USDC\",\"chain\":\"ethereum\"\x7d".data
    [("symbol", .str "USDC"), ("chain", .str "ethereum")]
    (by decide) (by decide) (by decide) (by decide) (by decide)
    (fun ts h => by cases h) (by decide)

/-! ## Value predicates (src/src/utils.ts) -/

/-- `isNonEmptyString`. -/
def isNonEmptyString (v : Json) : Bool :=
  match v with
  | .str s => !(trimC s.data).isEmpty
  | _ => false

/-- `isFiniteNumber` (`typeof value === "number" && Number.isFinite(value)`;
every modelled number is finite). -/
def isFiniteNumber (v : Json) : Bool :=
  match v with
  | .num _ => true
  | _ => false

/-- `isPlainObject` as a `Json` test. -/
def isPlainObjectB (v : Json) : Bool :=
  match v with
  | .obj _ => true
  | _ => false

/-- Hex digit (`[a-fA-F0-9]`). -/
def isHexChar (c : Char) : Bool :=
  c.isDigit || ('a' ≤ c && c ≤ 'f') || ('A' ≤ c && c ≤ 'F')

/-- Base58 alphabet (`[1-9A-HJ-NP-Za-km-z]`). -/
def isBase58Char (c : Char) : Bool :=
  ('1' ≤ c && c ≤ '9') ||
    ('A' ≤ c && c ≤ 'Z' && c != 'I' && c != 'O') ||
    ('a' ≤ c && c ≤ 'z' && c != 'l')

/-- `isLikelyTokenAddress`: trimmed, nonempty, and either an EVM
`0x`+40-hex-digit address or a 32-44 character Base58 address. -/
def isLikelyTokenAddress (value : String) : Bool :=
  let trimmed := trimC value.data
  if trimmed.isEmpty then false
  else
    let evm := match trimmed with
      | '0' :: 'x' :: rest => rest.length == 40 && rest.all isHexChar
      | _ => false
    if evm then true
    else trimmed.length ≥ 32 && trimmed.length ≤ 44 && trimmed.all isBase58Char

/-! ## Tool schemas and profiles (src/src/types.ts) -/

/-- `ToolParameterType`. -/
inductive ToolParameterType where
  | string
  | number
  | boolean
  | object
deriving DecidableEq

/-- `ParameterSchema`.  The `pattern` field carries the regex source text
alongside an abstract `RegExp.test` predicate (the regex engine is a
platform collaborator); `enum` is called `enumVals`. -/
structure ToolParameterSchema where
  type : ToolParameterType
  required : Bool := false
  nonEmpty : Bool := false
  enumVals : Option (List Json) := none
  min : Option Rat := none
  max : Option Rat := none
  pattern : Option (String × (String → Bool)) := none

/-- `ToolSchema` with the per-tool `customValidate` closure. -/
structure ToolSchema where
  parameters : List (String × ToolParameterSchema)
  strict : Option Bool := none
  customValidate : Option (Obj → List ValidationIssue) := none

/-- `DeveloperPromptPolicy`. -/
structure DeveloperPromptPolicy where
  canonicalPrompt : String
  requiredSnippets : Option (List String) := none

/-- `ModelProfile` (with the optional developer-prompt policy used by the
unified SDK). -/
structure ModelProfile where
  id : String
  tools : List (String × ToolSchema)
  developerPromptPolicy : Option DeveloperPromptPolicy := none

/-- `DetailedValidationResult`. -/
inductive DetailedValidationResult where
  | ok
  | invalid (errors : List ValidationIssue)
deriving DecidableEq

/-- `BasicValidationResult`. -/
inductive BasicValidationResult where
  | ok
  | invalid (errors : List String)
deriving DecidableEq

/-- `ToolCallResult` as consumed by the validator, executor and run loop. -/
structure ToolCall where
  tool : String
  args : Obj
  raw : String
  protocol : Protocol
deriving DecidableEq

/-- The literal name of an error code (`ValidationIssue.code` rendered in
`"<CODE>: <message>"` strings). -/
def codeName : SDKErrorCode → String
  | .E_NO_WRAPPER => "E_NO_WRAPPER"
  | .E_WRONG_PROTOCOL => "E_WRONG_PROTOCOL"
  | .E_JSON_INVALID => "E_JSON_INVALID"
  | .E_TOOL_UNKNOWN => "E_TOOL_UNKNOWN"
  | .E_PARAM_MISSING => "E_PARAM_MISSING"
  | .E_PARAM_FORBIDDEN => "E_PARAM_FORBIDDEN"
  | .E_PARAM_INVALID => "E_PARAM_INVALID"
  | .E_INVOKE_COUNT => "E_INVOKE_COUNT"
  | .E_RUNTIME => "E_RUNTIME"

/-! ## Generic validator (src/unnamed/part_002) -/

/-- Ordered concatenation of per-element issue lists (the purified form of
the source's sequential `errors.push` loops). -/
def collect (f : α → List β) : List α → List β
  | [] => []
  | a :: l => f a ++ collect f l

/-- Display of a `Json` value inside an enum message (JS string coercion on
the primitive enum entries). -/
def jsDisplay : Json → String
  | .str s => s
  | .bool b => if b then "true" else "false"
  | .null => "null"
  | .num q => toString q
  | .arr _ => "[array]"
  | .obj _ => "[object]"

/-- `validateByType`: the per-parameter type / nonEmpty / pattern /
min-max checks, in source order with the source's early returns.  (After the
`isFiniteNumber` guard a number value is always `Json.num`, so the numeric
branch matches on the constructor directly.) -/
def validateByType (key : String) (value : Json) (schema : ToolParameterSchema) :
    List ValidationIssue :=
  match schema.type with
  | .string =>
    match value with
    | .str s =>
      if schema.nonEmpty && (trimC s.data).isEmpty then
        [⟨.E_PARAM_INVALID, s!"{key} must be a non-empty string."⟩]
      else
        match schema.pattern with
        | some (src, test) =>
          if !(test s) then
            [⟨.E_PARAM_INVALID, s!"{key} does not match pattern {src}."⟩]
          else []
        | none => []
    | _ => [⟨.E_PARAM_INVALID, s!"{key} must be a string."⟩]
  | .number =>
    match value with
    | .num q =>
      (match schema.min with
        | some m => if q < m then
            (let ms := toString m; [⟨.E_PARAM_INVALID, s!"{key} must be >= {ms}."⟩])
          else []
        | none => []) ++
      (match schema.max with
        | some m => if m < q then
            (let ms := toString m; [⟨.E_PARAM_INVALID, s!"{key} must be <= {ms}."⟩])
          else []
        | none => [])
    | _ => [⟨.E_PARAM_INVALID, s!"{key} must be a number."⟩]
  | .boolean =>
    match value with
    | .bool _ => []
    | _ => [⟨.E_PARAM_INVALID, s!"{key} must be a boolean."⟩]
  | .object =>
    if isPlainObjectB value then [] else [⟨.E_PARAM_INVALID, s!"{key} must be an object."⟩]

/-- `validateEnum`. -/
def validateEnum (key : String) (value : Json) (schema : ToolParameterSchema) :
    List ValidationIssue :=
  match schema.enumVals with
  | none => []
  | some es =>
    if es.contains value then []
    else
      let shown := String.intercalate ", " (es.map jsDisplay)
      [⟨.E_PARAM_INVALID, s!"{key} must be one of: {shown}."⟩]

/-- The `E_PARAM_MISSING` issue for a required-but-absent parameter. -/
def missingIssue (key tool : String) : ValidationIssue :=
  ⟨.E_PARAM_MISSING, s!"{key} is required for {tool}."⟩

/-- The `E_PARAM_FORBIDDEN` issue for an undeclared key under a strict
schema. -/
def forbiddenIssue (tool key : String) : ValidationIssue :=
  ⟨.E_PARAM_FORBIDDEN, s!"{tool} does not allow parameter: {key}."⟩

/-- The single `E_TOOL_UNKNOWN` issue for a tool without a schema. -/
def unknownToolIssue (tool pid : String) : ValidationIssue :=
  ⟨.E_TOOL_UNKNOWN, s!"Tool {tool} is not defined in profile {pid}."⟩

/-- Phase 1 of `validateDetailed`: an `E_PARAM_MISSING` issue for every
declared required parameter absent from the arguments. -/
def missingPhase (tool : String) (args : Obj) (schema : ToolSchema) : List ValidationIssue :=
  collect
    (fun kv => if kv.2.required && (args.lookup kv.1).isNone
      then [missingIssue kv.1 tool] else [])
    schema.parameters

/-- Phase 2 of `validateDetailed`: under a strict schema (the default), an
`E_PARAM_FORBIDDEN` issue for every argument key not declared. -/
def forbiddenPhase (tool : String) (args : Obj) (schema : ToolSchema) : List ValidationIssue :=
  if schema.strict.getD true then
    collect
      (fun kv => if (schema.parameters.lookup kv.1).isSome then []
        else [forbiddenIssue tool kv.1])
      args
  else []

/-- The type+enum issue block of a single argument entry (empty when the
key has no declared parameter schema). -/
def typeCheckOf (schema : ToolSchema) (kv : String × Json) : List ValidationIssue :=
  match schema.parameters.lookup kv.1 with
  | none => []
  | some ps => validateByType kv.1 kv.2 ps ++ validateEnum kv.1 kv.2 ps

/-- Phase 3 of `validateDetailed`: per-argument type and enum checks for
every argument with a declared parameter schema. -/
def typePhase (args : Obj) (schema : ToolSchema) : List ValidationIssue :=
  collect (typeCheckOf schema) args

/-- Phase 4 of `validateDetailed`: the tool's `customValidate` hook. -/
def customPhase (args : Obj) (schema : ToolSchema) : List ValidationIssue :=
  match schema.customValidate with
  | some f => f args
  | none => []

/-- `validateDetailed`: unknown tool short-circuits with a single issue;
otherwise the four phases (required-missing, strict-forbidden, per-argument
type+enum, customValidate) append their issues in source order and the
result is `ok` exactly when no issue was collected. -/
def validateDetailed (call : ToolCall) (profile : ModelProfile) : DetailedValidationResult :=
  match profile.tools.lookup call.tool with
  | none => .invalid [unknownToolIssue call.tool profile.id]
  | some schema =>
    let errors := missingPhase call.tool call.args schema ++
      forbiddenPhase call.tool call.args schema ++
      typePhase call.args schema ++
      customPhase call.args schema
    if errors.isEmpty then .ok else .invalid errors

/-- `validate`: the basic wrapper collapsing issues to
`"<CODE>: <message>"` strings. -/
def validate (call : ToolCall) (profile : ModelProfile) : BasicValidationResult :=
  match validateDetailed call profile with
  | .ok => .ok
  | .invalid errs => .invalid (errs.map fun i =>
      (let c := codeName i.code; let m := i.message; s!"{c}: {m}"))

/-! ## The dmind-3-nano profile (src/src/chat-types.ts) -/

/-- `CHAIN_VALUES`. -/
def CHAIN_VALUES : List Json :=
  [.str "solana", .str "ethereum", .str "bsc", .str "base"]

/-- `DMIND_3_NANO_DEVELOPER_PROMPT`. -/
def DMIND_3_NANO_DEVELOPER_PROMPT : String :=
  "You are a model that can do function calling with the following functions.\n\nYou may use only two tools: SEARCH_TOKEN and EXECUTE_SWAP.\n\nDo not call any tools besides SEARCH_TOKEN and EXECUTE_SWAP.\n\nFor function calls, output only this exact format:\n<start_function_call>call:TOOL_NAME\x7b...JSON...\x7d<end_function_call>\n\nIf no function call is needed, output normal text without wrappers."

/-- `validateSearchToken`: at least one of symbol/address/keyword, and a
plausible address shape when an address is given. -/
def validateSearchToken (args : Obj) : List ValidationIssue :=
  let hasSearchSeed :=
    isNonEmptyString ((args.lookup "symbol").getD .null) ||
    isNonEmptyString ((args.lookup "address").getD .null) ||
    isNonEmptyString ((args.lookup "keyword").getD .null)
  (if !hasSearchSeed then
    [⟨.E_PARAM_MISSING, "SEARCH_TOKEN requires at least one of symbol, address, or keyword."⟩]
  else []) ++
  (match args.lookup "address" with
    | some (.str s) =>
      if isNonEmptyString (.str s) && !(isLikelyTokenAddress s) then
        [⟨.E_PARAM_INVALID, "SEARCH_TOKEN.address format is invalid."⟩]
      else []
    | _ => [])

/-- `validateExecuteSwap`: amount/percentage mutual exclusion, positive
amounts, plausible contract-address shapes. -/
def validateExecuteSwap (args : Obj) : List ValidationIssue :=
  (if (args.lookup "inputTokenAmount").isSome && (args.lookup "inputTokenPercentage").isSome then
    [⟨.E_PARAM_FORBIDDEN, "inputTokenAmount and inputTokenPercentage are mutually exclusive."⟩]
  else []) ++
  (match args.lookup "inputTokenAmount" with
    | some (.num q) =>
      if q ≤ 0 then [⟨.E_PARAM_INVALID, "inputTokenAmount must be greater than 0."⟩] else []
    | _ => []) ++
  (match args.lookup "outputTokenAmount" with
    | some (.num q) =>
      if q ≤ 0 then [⟨.E_PARAM_INVALID, "outputTokenAmount must be greater than 0."⟩] else []
    | _ => []) ++
  collect
    (fun key =>
      match args.lookup key with
      | some (.str s) =>
        if isNonEmptyString (.str s) && !(isLikelyTokenAddress s) then
          [⟨.E_PARAM_INVALID, s!"{key} format is invalid."⟩]
        else []
      | _ => [])
    ["inputTokenCA", "outputTokenCA"]

/-- `DMIND_3_NANO_PROFILE`. -/
def DMIND_3_NANO_PROFILE : ModelProfile where
  id := "dmind-3-nano"
  developerPromptPolicy := some { canonicalPrompt := DMIND_3_NANO_DEVELOPER_PROMPT }
  tools := [
    ("SEARCH_TOKEN", {
      strict := some true
      parameters := [
        ("symbol", { type := .string, nonEmpty := true }),
        ("address", { type := .string, nonEmpty := true }),
        ("chain", { type := .string, enumVals := some CHAIN_VALUES, nonEmpty := true }),
        ("keyword", { type := .string, nonEmpty := true })]
      customValidate := some validateSearchToken }),
    ("EXECUTE_SWAP", {
      strict := some true
      parameters := [
        ("inputTokenSymbol", { type := .string, required := true, nonEmpty := true }),
        ("inputTokenCA", { type := .string, nonEmpty := true }),
        ("outputTokenCA", { type := .string, nonEmpty := true }),
        ("inputTokenAmount", { type := .number }),
        ("inputTokenPercentage", { type := .number, min := some 0, max := some 1 }),
        ("outputTokenAmount", { type := .number })]
      customValidate := some validateExecuteSwap })]

/-- `toolNameSet` (profile allow-list). -/
def toolNameSet (profile : ModelProfile) : List String := profile.tools.map (·.1)

/-! ## Validator lemmas -/

/-- The issue list of a validation result (empty on `ok`). -/
def DetailedValidationResult.errorsOf : DetailedValidationResult → List ValidationIssue
  | .ok => []
  | .invalid errs => errs

theorem mem_collect_of_mem (f : α → List β) {a : α} {l : List α} (ha : a ∈ l)
    {b : β} (hb : b ∈ f a) : b ∈ collect f l := by
  induction l with
  | nil => cases ha
  | cons x t ih =>
    rcases List.mem_cons.mp ha with h | h
    · subst h
      exact List.mem_append_left _ hb
    · exact List.mem_append_right _ (ih h)

theorem collect_infix_of_mem (f : α → List β) {a : α} {l : List α} (ha : a ∈ l) :
    f a <:+: collect f l := by
  induction l with
  | nil => cases ha
  | cons x t ih =>
    rcases List.mem_cons.mp ha with h | h
    · subst h
      exact ⟨[], collect f t, by simp [collect]⟩
    · rcases ih h with ⟨s, u, hsu⟩
      exact ⟨f x ++ s, u, by simp [collect, ← hsu]⟩

theorem infix_append_left' {α : Type} {l m : List α} (x : List α) (h : l <:+: m) :
    l <:+: x ++ m := by
  rcases h with ⟨s, t, rfl⟩
  exact ⟨x ++ s, t, by simp⟩

theorem infix_append_right' {α : Type} {l m : List α} (y : List α) (h : l <:+: m) :
    l <:+: m ++ y := by
  rcases h with ⟨s, t, rfl⟩
  exact ⟨s, t ++ y, by simp⟩

theorem suffix_append_left' {α : Type} {l m : List α} (x : List α) (h : l <:+ m) :
    l <:+ x ++ m := by
  rcases h with ⟨s, rfl⟩
  exact ⟨x ++ s, by simp⟩

theorem mem_of_lookup_eq_some {α β : Type} [BEq α] [LawfulBEq α]
    {l : List (α × β)} {k : α} {v : β} (h : l.lookup k = some v) : (k, v) ∈ l := by
  induction l with
  | nil => simp [List.lookup] at h
  | cons p t ih =>
    rw [List.lookup] at h
    by_cases he : k == p.1
    · rw [he] at h
      simp only [Option.some.injEq] at h
      have : k = p.1 := by simpa using he
      subst this
      subst h
      exact List.mem_cons_self _ _
    · rw [Bool.not_eq_true] at he
      rw [he] at h
      exact List.mem_cons_of_mem _ (ih h)

/-- The issue list of `validateDetailed` for a known tool is exactly the
four phases in order. -/
theorem validateDetailed_errorsOf (call : ToolCall) (profile : ModelProfile)
    (schema : ToolSchema) (h : profile.tools.lookup call.tool = some schema) :
    (validateDetailed call profile).errorsOf =
      missingPhase call.tool call.args schema ++
        forbiddenPhase call.tool call.args schema ++
        typePhase call.args schema ++
        customPhase call.args schema := by
  have hres : validateDetailed call profile =
      (if (missingPhase call.tool call.args schema ++
          forbiddenPhase call.tool call.args schema ++
          typePhase call.args schema ++
          customPhase call.args schema).isEmpty then .ok
        else .invalid (missingPhase call.tool call.args schema ++
          forbiddenPhase call.tool call.args schema ++
          typePhase call.args schema ++
          customPhase call.args schema)) := by
    unfold validateDetailed
    rw [h]
  rw [hres]
  cases he : (missingPhase call.tool call.args schema ++
      forbiddenPhase call.tool call.args schema ++
      typePhase call.args schema ++
      customPhase call.args schema).isEmpty with
  | true =>
    simp only [he, reduceIte, DetailedValidationResult.errorsOf]
    exact (List.isEmpty_iff.mp he).symm
  | false =>
    simp only [he, Bool.false_eq_true, reduceIte, DetailedValidationResult.errorsOf]

/-- A validation result with a nonempty issue list is `ok:false` carrying
exactly that list. -/
theorem validateDetailed_invalid (call : ToolCall) (profile : ModelProfile)
    (h : (validateDetailed call profile).errorsOf ≠ []) :
    validateDetailed call profile = .invalid (validateDetailed call profile).errorsOf := by
  cases hv : validateDetailed call profile with
  | ok => rw [hv] at h; exact absurd rfl h
  | invalid errs => rfl

/-- Claim C5: an EXECUTE_SWAP call against the default dmind-3-nano profile
carrying both `inputTokenAmount` and `inputTokenPercentage` is always
`ok:false` with an `E_PARAM_FORBIDDEN` issue in the list, regardless of the
values or of any other fields. -/
theorem swap_amount_percentage_forbidden (args : Obj) (raw : String) (p : Protocol)
    (h1 : (args.lookup "inputTokenAmount").isSome = true)
    (h2 : (args.lookup "inputTokenPercentage").isSome = true) :
    ∃ errs, validateDetailed ⟨"EXECUTE_SWAP", args, raw, p⟩ DMIND_3_NANO_PROFILE =
        .invalid errs ∧
      ∃ i ∈ errs, i.code = .E_PARAM_FORBIDDEN := by
  have hcustom :
      (⟨.E_PARAM_FORBIDDEN,
        "inputTokenAmount and inputTokenPercentage are mutually exclusive."⟩ : ValidationIssue) ∈
        validateExecuteSwap args := by
    unfold validateExecuteSwap
    rw [h1, h2]
    simp
  have herr := validateDetailed_errorsOf ⟨"EXECUTE_SWAP", args, raw, p⟩
    DMIND_3_NANO_PROFILE _ rfl
  have hmem : (⟨.E_PARAM_FORBIDDEN,
      "inputTokenAmount and inputTokenPercentage are mutually exclusive."⟩ : ValidationIssue) ∈
      (validateDetailed ⟨"EXECUTE_SWAP", args, raw, p⟩ DMIND_3_NANO_PROFILE).errorsOf := by
    rw [herr]
    refine List.mem_append_right _ ?_
    simpa [customPhase] using hcustom
  have hne : (validateDetailed ⟨"EXECUTE_SWAP", args, raw, p⟩ DMIND_3_NANO_PROFILE).errorsOf ≠ [] :=
    fun hnil => by rw [hnil] at hmem; cases hmem
  refine ⟨(validateDetailed ⟨"EXECUTE_SWAP", args, raw, p⟩ DMIND_3_NANO_PROFILE).errorsOf,
    validateDetailed_invalid _ _ hne, ⟨_, hmem, rfl⟩⟩

/-- Concrete instance of `swap_amount_percentage_forbidden` (the test
fixture in sdk.test.ts). -/
theorem swap_amount_percentage_forbidden_witness :
    ∃ errs, validateDetailed
        ⟨"EXECUTE_SWAP",
          [("inputTokenSymbol", .str "SOL"), ("inputTokenAmount", .num 1),
            ("inputTokenPercentage", .num (3 / 10))], "", .official⟩
        DMIND_3_NANO_PROFILE = .invalid errs ∧
      ∃ i ∈ errs, i.code = .E_PARAM_FORBIDDEN :=
  swap_amount_percentage_forbidden
    [("inputTokenSymbol", .str "SOL"), ("inputTokenAmount", .num 1),
      ("inputTokenPercentage", .num (3 / 10))] "" .official
    (by decide) (by decide)

/-- Claim C10: under the default dmind-3-nano profile, an EXECUTE_SWAP call
whose `inputTokenAmount` or `outputTokenAmount` is a number `≤ 0` is
rejected with an `E_PARAM_INVALID` issue saying the amount must be greater
than 0 (enforced by the `customValidate` hook), even though the declared
parameter schemas of both fields carry no `min` bound. -/
theorem swap_nonpositive_amount_rejected (args : Obj) (raw : String) (p : Protocol) :
    (∀ q : Rat, args.lookup "inputTokenAmount" = some (.num q) → q ≤ 0 →
      ∃ errs, validateDetailed ⟨"EXECUTE_SWAP", args, raw, p⟩ DMIND_3_NANO_PROFILE =
          .invalid errs ∧
        (⟨.E_PARAM_INVALID, "inputTokenAmount must be greater than 0."⟩ : ValidationIssue) ∈ errs) ∧
    (∀ q : Rat, args.lookup "outputTokenAmount" = some (.num q) → q ≤ 0 →
      ∃ errs, validateDetailed ⟨"EXECUTE_SWAP", args, raw, p⟩ DMIND_3_NANO_PROFILE =
          .invalid errs ∧
        (⟨.E_PARAM_INVALID, "outputTokenAmount must be greater than 0."⟩ : ValidationIssue) ∈ errs) ∧
    ((DMIND_3_NANO_PROFILE.tools.lookup "EXECUTE_SWAP").bind
      (fun s => s.parameters.lookup "inputTokenAmount")).map ToolParameterSchema.min =
        some none ∧
    ((DMIND_3_NANO_PROFILE.tools.lookup "EXECUTE_SWAP").bind
      (fun s => s.parameters.lookup "outputTokenAmount")).map ToolParameterSchema.min =
        some none := by
  have herr := validateDetailed_errorsOf ⟨"EXECUTE_SWAP", args, raw, p⟩
    DMIND_3_NANO_PROFILE _ rfl
  refine ⟨?_, ?_, rfl, rfl⟩
  · intro q hq hle
    have hcustom : (⟨.E_PARAM_INVALID, "inputTokenAmount must be greater than 0."⟩ :
        ValidationIssue) ∈ validateExecuteSwap args := by
      unfold validateExecuteSwap
      rw [hq]
      refine List.mem_append_left _ (List.mem_append_left _ ?_)
      refine List.mem_append_right _ ?_
      simp [hle]
    have hmem : (⟨.E_PARAM_INVALID, "inputTokenAmount must be greater than 0."⟩ :
        ValidationIssue) ∈
        (validateDetailed ⟨"EXECUTE_SWAP", args, raw, p⟩ DMIND_3_NANO_PROFILE).errorsOf := by
      rw [herr]
      refine List.mem_append_right _ ?_
      simpa [customPhase] using hcustom
    have hne : (validateDetailed ⟨"EXECUTE_SWAP", args, raw, p⟩
        DMIND_3_NANO_PROFILE).errorsOf ≠ [] :=
      fun hnil => by rw [hnil] at hmem; cases hmem
    exact ⟨_, validateDetailed_invalid _ _ hne, hmem⟩
  · intro q hq hle
    have hcustom : (⟨.E_PARAM_INVALID, "outputTokenAmount must be greater than 0."⟩ :
        ValidationIssue) ∈ validateExecuteSwap args := by
      unfold validateExecuteSwap
      rw [hq]
      refine List.mem_append_left _ ?_
      refine List.mem_append_right _ ?_
      simp [hle]
    have hmem : (⟨.E_PARAM_INVALID, "outputTokenAmount must be greater than 0."⟩ :
        ValidationIssue) ∈
        (validateDetailed ⟨"EXECUTE_SWAP", args, raw, p⟩ DMIND_3_NANO_PROFILE).errorsOf := by
      rw [herr]
      refine List.mem_append_right _ ?_
      simpa [customPhase] using hcustom
    have hne : (validateDetailed ⟨"EXECUTE_SWAP", args, raw, p⟩
        DMIND_3_NANO_PROFILE).errorsOf ≠ [] :=
      fun hnil => by rw [hnil] at hmem; cases hmem
    exact ⟨_, validateDetailed_invalid _ _ hne, hmem⟩

/-- Concrete instance of `swap_nonpositive_amount_rejected` at
`inputTokenAmount = -1`. -/
theorem swap_nonpositive_amount_rejected_witness :
    ∃ errs, validateDetailed
        ⟨"EXECUTE_SWAP", [("inputTokenSymbol", .str "SOL"), ("inputTokenAmount", .num (-1))],
          "", .official⟩ DMIND_3_NANO_PROFILE = .invalid errs ∧
      (⟨.E_PARAM_INVALID, "inputTokenAmount must be greater than 0."⟩ : ValidationIssue) ∈ errs :=
  (swap_nonpositive_amount_rejected
    [("inputTokenSymbol", .str "SOL"), ("inputTokenAmount", .num (-1))] "" .official).1
    (-1) (by decide) (by norm_num)

/-- Claim C6: a tool with no schema in the profile yields `ok:false` with
exactly one `E_TOOL_UNKNOWN` issue; for a known tool the validator never
short-circuits: every required-but-absent parameter contributes its own
`E_PARAM_MISSING` issue, every undeclared argument key under a strict schema
its own `E_PARAM_FORBIDDEN` issue, every argument with a declared parameter
schema contributes its full block of failing type / nonEmpty / bounds /
pattern / enum checks (as a contiguous infix, so multiple issues on one key
are possible), and the `customValidate` issues are appended afterwards (as a
suffix); any collected issue makes the result `ok:false` carrying the full
list. -/
theorem validator_collects_all_issues (call : ToolCall) (profile : ModelProfile) :
    (profile.tools.lookup call.tool = none →
      validateDetailed call profile = .invalid [unknownToolIssue call.tool profile.id]) ∧
    (∀ schema, profile.tools.lookup call.tool = some schema →
      (∀ k ps, schema.parameters.lookup k = some ps → ps.required = true →
        call.args.lookup k = none →
        missingIssue k call.tool ∈ (validateDetailed call profile).errorsOf) ∧
      (schema.strict.getD true = true → ∀ k v, (k, v) ∈ call.args →
        schema.parameters.lookup k = none →
        forbiddenIssue call.tool k ∈ (validateDetailed call profile).errorsOf) ∧
      (∀ k v ps, (k, v) ∈ call.args → schema.parameters.lookup k = some ps →
        (validateByType k v ps ++ validateEnum k v ps) <:+:
          (validateDetailed call profile).errorsOf) ∧
      (∀ f, schema.customValidate = some f →
        f call.args <:+ (validateDetailed call profile).errorsOf) ∧
      ((validateDetailed call profile).errorsOf ≠ [] →
        validateDetailed call profile =
          .invalid ((validateDetailed call profile).errorsOf))) := by
  constructor
  · intro h
    unfold validateDetailed
    rw [h]
  · intro schema h
    have herr := validateDetailed_errorsOf call profile schema h
    refine ⟨?_, ?_, ?_, ?_, validateDetailed_invalid _ _⟩
    · intro k ps hps hreq habs
      rw [herr]
      refine List.mem_append_left _ (List.mem_append_left _ (List.mem_append_left _ ?_))
      unfold missingPhase
      exact mem_collect_of_mem _ (mem_of_lookup_eq_some hps) (by simp [hreq, habs])
    · intro hstrict k v hkv hnone
      rw [herr]
      refine List.mem_append_left _ (List.mem_append_left _ (List.mem_append_right _ ?_))
      unfold forbiddenPhase
      rw [hstrict]
      simp only [if_true, reduceIte]
      exact mem_collect_of_mem _ hkv (by simp [hnone])
    · intro k v ps hkv hps
      rw [herr]
      refine infix_append_right' _ (infix_append_left' _ ?_)
      unfold typePhase
      have hblock : (validateByType k v ps ++ validateEnum k v ps) =
          typeCheckOf schema (k, v) := by
        simp [typeCheckOf, hps]
      rw [hblock]
      exact collect_infix_of_mem _ hkv
    · intro f hf
      rw [herr]
      have hcp : customPhase call.args schema = f call.args := by
        simp [customPhase, hf]
      rw [← hcp]
      exact List.suffix_append _ _

/-- Concrete instances of `validator_collects_all_issues`: an unknown tool,
and one EXECUTE_SWAP call exhibiting a missing-required issue, a
strict-forbidden issue and a per-argument type block all at once. -/
theorem validator_collects_all_issues_witness :
    validateDetailed ⟨"NOPE", [], "", .official⟩ DMIND_3_NANO_PROFILE =
      .invalid [unknownToolIssue "NOPE" "dmind-3-nano"] ∧
    missingIssue "inputTokenSymbol" "EXECUTE_SWAP" ∈
      (validateDetailed ⟨"EXECUTE_SWAP", [("bogus", .num 1), ("inputTokenAmount", .str "x")],
        "", .official⟩ DMIND_3_NANO_PROFILE).errorsOf ∧
    forbiddenIssue "EXECUTE_SWAP" "bogus" ∈
      (validateDetailed ⟨"EXECUTE_SWAP", [("bogus", .num 1), ("inputTokenAmount", .str "x")],
        "", .official⟩ DMIND_3_NANO_PROFILE).errorsOf ∧
    (validateByType "inputTokenAmount" (.str "x") ({ type := .number } : ToolParameterSchema) ++
        validateEnum "inputTokenAmount" (.str "x") ({ type := .number } : ToolParameterSchema)) <:+:
      (validateDetailed ⟨"EXECUTE_SWAP", [("bogus", .num 1), ("inputTokenAmount", .str "x")],
        "", .official⟩ DMIND_3_NANO_PROFILE).errorsOf :=
  ⟨(validator_collects_all_issues ⟨"NOPE", [], "", .official⟩ DMIND_3_NANO_PROFILE).1 rfl,
    ((validator_collects_all_issues
        ⟨"EXECUTE_SWAP", [("bogus", .num 1), ("inputTokenAmount", .str "x")], "", .official⟩
        DMIND_3_NANO_PROFILE).2 _ rfl).1 "inputTokenSymbol" _ rfl rfl rfl,
    ((validator_collects_all_issues
        ⟨"EXECUTE_SWAP", [("bogus", .num 1), ("inputTokenAmount", .str "x")], "", .official⟩
        DMIND_3_NANO_PROFILE).2 _ rfl).2.1 rfl "bogus" (.num 1) (by decide) rfl,
    ((validator_collects_all_issues
        ⟨"EXECUTE_SWAP", [("bogus", .num 1), ("inputTokenAmount", .str "x")], "", .official⟩
        DMIND_3_NANO_PROFILE).2 _ rfl).2.2.1 "inputTokenAmount" (.str "x") _ (by decide) rfl⟩

/-! ## Developer-prompt compliance gate (src/src/developer-prompt.ts) -/

/-- `DEFAULT_REQUIRED_SNIPPETS`. -/
def DEFAULT_REQUIRED_SNIPPETS : List String :=
  ["You may use only two tools: SEARCH_TOKEN and EXECUTE_SWAP.",
    "<start_function_call>call:TOOL_NAME\x7b...JSON...\x7d<end_function_call>",
    "If no function call is needed, output normal text without wrappers."]

/-- `PromptMessage` (`{ role: string; content?: unknown }`). -/
structure PromptMessage where
  role : String
  content : Option Json := none
deriving DecidableEq

/-- JavaScript `split("\n")` (at least one segment; empty segments kept). -/
def splitOnNlAux : List Char → List Char → List (List Char)
  | acc, [] => [acc.reverse]
  | acc, c :: rest =>
    if c = '\n' then acc.reverse :: splitOnNlAux [] rest
    else splitOnNlAux (c :: acc) rest

/-- `normalizePromptText`: CRLF to LF, split lines, trim each, drop blanks,
rejoin with LF. -/
def normalizePromptText (text : String) : String :=
  let unified := replaceAllSub "\r\n".data "\n".data text.data
  let lines := splitOnNlAux [] unified
  let kept := (lines.map trimC).filter (fun l => !l.isEmpty)
  String.intercalate "\n" (kept.map String.mk)

/-- `isDeveloperPromptCompliant`. -/
def isDeveloperPromptCompliant (content : String) (policy : DeveloperPromptPolicy) : Bool :=
  let normalized := normalizePromptText content
  let canonical := normalizePromptText policy.canonicalPrompt
  if normalized == canonical then true
  else
    let snippets := policy.requiredSnippets.getD DEFAULT_REQUIRED_SNIPPETS
    (snippets.map normalizePromptText).all fun snippet => jsIncludes snippet normalized

/-- `hasCompliantDeveloperPrompt`: exactly one developer message, first in
the sequence, with string content passing the compliance test. -/
def hasCompliantDeveloperPrompt (messages : List PromptMessage)
    (policy : DeveloperPromptPolicy) : Bool :=
  let developerMessages := messages.filter fun m => m.role == "developer"
  if developerMessages.length != 1 then false
  else
    match messages with
    | [] => false
    | m0 :: _ =>
      if m0.role != "developer" then false
      else
        match m0.content with
        | some (.str c) => isDeveloperPromptCompliant c policy
        | _ => false

/-- `enforceDeveloperPrompt`. -/
def enforceDeveloperPrompt (messages : List PromptMessage)
    (policy : Option DeveloperPromptPolicy) : List PromptMessage :=
  match policy with
  | none => messages
  | some p =>
    if hasCompliantDeveloperPrompt messages p then messages
    else
      ⟨"developer", some (.str p.canonicalPrompt)⟩ ::
        messages.filter fun m => m.role != "developer"


/-- If prepending the canonical developer message to the developer-stripped
sequence reproduces the input, the input was already compliant. -/
theorem hasCompliant_of_injected (policy : DeveloperPromptPolicy) (msgs : List PromptMessage)
    (heq : (⟨"developer", some (.str policy.canonicalPrompt)⟩ : PromptMessage) ::
      msgs.filter (fun m => m.role != "developer") = msgs) :
    hasCompliantDeveloperPrompt msgs policy = true := by
  have hmsgs := heq.symm
  have hfilter : msgs.filter (fun m => m.role != "developer") =
      (msgs.filter (fun m => m.role != "developer")).filter
        (fun m => m.role != "developer") := by
    conv_lhs => rw [hmsgs]
    simp [List.filter_cons]
  have hall : ∀ a ∈ msgs.filter (fun m => m.role != "developer"),
      (a.role != "developer") = true := by
    intro a ha
    rw [hfilter] at ha
    have h2 := List.of_mem_filter ha
    exact h2
  have hempty : (msgs.filter (fun m => m.role != "developer")).filter
      (fun m => m.role == "developer") = [] := by
    rw [List.filter_eq_nil_iff]
    intro a ha
    have h1 := hall a ha
    simp only [bne, Bool.not_eq_true'] at h1
    simp [h1]
  have hcomp : isDeveloperPromptCompliant policy.canonicalPrompt policy = true := by
    unfold isDeveloperPromptCompliant
    simp
  have hdev2 : ((⟨"developer", some (.str policy.canonicalPrompt)⟩ : PromptMessage) ::
      msgs.filter (fun m => m.role != "developer")).filter
        (fun m => m.role == "developer") =
      [⟨"developer", some (.str policy.canonicalPrompt)⟩] := by
    simp [List.filter_cons, hempty]
  rw [hmsgs]
  unfold hasCompliantDeveloperPrompt
  simp only [hdev2, List.length_cons, List.length_nil]
  simp [hcomp]

/-- A compliant transcript has exactly one developer message and it is the
first message. -/
theorem compliant_structure (policy : DeveloperPromptPolicy) (msgs : List PromptMessage)
    (hc : hasCompliantDeveloperPrompt msgs policy = true) :
    (msgs.filter (fun m => m.role == "developer")).length = 1 ∧
    ∃ m rest, msgs = m :: rest ∧ m.role = "developer" := by
  unfold hasCompliantDeveloperPrompt at hc
  by_cases hl : ((msgs.filter (fun m => m.role == "developer")).length != 1) = true
  · rw [if_pos hl] at hc
    cases hc
  · have hl' : (msgs.filter (fun m => m.role == "developer")).length = 1 := by
      simpa using hl
    rw [if_neg hl] at hc
    cases msgs with
    | nil =>
      dsimp only at hc
      cases hc
    | cons m0 rest =>
      dsimp only at hc
      by_cases hr : (m0.role != "developer") = true
      · rw [if_pos hr] at hc
        cases hc
      · have hr' : m0.role = "developer" := by simpa using hr
        exact ⟨hl', m0, rest, rfl, hr'⟩

/-- Claim C7: with a policy, `enforceDeveloperPrompt` returns the sequence
unchanged if and only if the transcript is compliant (exactly one
developer-role message, placed first, with string content whose normalized
text equals the normalized canonical prompt or contains every required
snippet); otherwise it strips all developer messages and prepends a single
developer message carrying the canonical prompt verbatim.  In either case
the output contains exactly one developer message and it is first. -/
theorem developer_prompt_gate (policy : DeveloperPromptPolicy) (msgs : List PromptMessage) :
    (enforceDeveloperPrompt msgs (some policy) = msgs ↔
      hasCompliantDeveloperPrompt msgs policy = true) ∧
    (hasCompliantDeveloperPrompt msgs policy = false →
      enforceDeveloperPrompt msgs (some policy) =
        ⟨"developer", some (.str policy.canonicalPrompt)⟩ ::
          msgs.filter (fun m => m.role != "developer")) ∧
    (enforceDeveloperPrompt msgs (some policy)).countP (fun m => m.role == "developer") = 1 ∧
    ∃ m rest, enforceDeveloperPrompt msgs (some policy) = m :: rest ∧ m.role = "developer" := by
  by_cases hc : hasCompliantDeveloperPrompt msgs policy = true
  · have henf : enforceDeveloperPrompt msgs (some policy) = msgs := by
      simp [enforceDeveloperPrompt, hc]
    obtain ⟨hlen, m, rest, hm, hrole⟩ := compliant_structure policy msgs hc
    refine ⟨by simp [henf, hc], ?_, ?_, m, rest, by rw [henf, hm], hrole⟩
    · intro hfalse
      rw [hc] at hfalse
      cases hfalse
    · rw [henf, List.countP_eq_length_filter]
      exact hlen
  · have hc' : hasCompliantDeveloperPrompt msgs policy = false := by
      simpa using hc
    have henf : enforceDeveloperPrompt msgs (some policy) =
        ⟨"developer", some (.str policy.canonicalPrompt)⟩ ::
          msgs.filter (fun m => m.role != "developer") := by
      simp [enforceDeveloperPrompt, hc']
    have hcnt : (enforceDeveloperPrompt msgs (some policy)).countP
        (fun m => m.role == "developer") = 1 := by
      rw [henf, List.countP_cons]
      have hemp : (msgs.filter (fun m => m.role != "developer")).countP
          (fun m => m.role == "developer") = 0 := by
        rw [List.countP_eq_length_filter]
        have : (msgs.filter (fun m => m.role != "developer")).filter
            (fun m => m.role == "developer") = [] := by
          rw [List.filter_eq_nil_iff]
          intro a ha
          have h2 := List.of_mem_filter ha
          simp only [bne, Bool.not_eq_true'] at h2
          simp [h2]
        rw [this]
        rfl
      rw [hemp]
      simp
    refine ⟨?_, fun _ => henf, hcnt, _, _, henf, rfl⟩
    constructor
    · intro heq
      rw [henf] at heq
      exact absurd (hasCompliant_of_injected policy msgs heq) hc
    · intro h
      exact absurd h hc

/-- Concrete instances of `developer_prompt_gate`: a compliant transcript is
returned unchanged; a transcript without a developer message gets the
canonical prompt prepended. -/
theorem developer_prompt_gate_witness :
    hasCompliantDeveloperPrompt
      [⟨"developer", some (.str "Prompt.")⟩, ⟨"user", some (.str "hi")⟩]
      ⟨"Prompt.", none⟩ = true ∧
    enforceDeveloperPrompt
      [⟨"developer", some (.str "Prompt.")⟩, ⟨"user", some (.str "hi")⟩]
      (some ⟨"Prompt.", none⟩) =
      [⟨"developer", some (.str "Prompt.")⟩, ⟨"user", some (.str "hi")⟩] ∧
    enforceDeveloperPrompt [⟨"user", some (.str "hi")⟩] (some ⟨"Prompt.", none⟩) =
      [⟨"developer", some (.str "Prompt.")⟩, ⟨"user", some (.str "hi")⟩] :=
  ⟨by decide,
    (developer_prompt_gate ⟨"Prompt.", none⟩
      [⟨"developer", some (.str "Prompt.")⟩, ⟨"user", some (.str "hi")⟩]).1.mpr (by decide),
    (developer_prompt_gate ⟨"Prompt.", none⟩ [⟨"user", some (.str "hi")⟩]).2.1 (by decide)⟩

/-! ## OpenAI interop, Direction B (src/unnamed/part_000)

The converter's declared domain is the `OpenAIAssistantMessage` TypeScript
interface; the embedding models exactly that typed domain (`content` is
`string | null`, `tool_calls` an optional array), with the runtime shape
checks that remain meaningful on it.  `JSON.stringify` is the abstract
`jstr` parameter applied to a concrete encoding of the message. -/

/-- `OpenAIFunctionCall`; `arguments` is declared `string` but the runtime
also accepts an already-structured object, so it is modelled as `Json`. -/
structure OpenAIFunctionCall where
  name : String
  arguments : Json
deriving DecidableEq

/-- `OpenAIToolCall` (`function` is runtime-checked for presence). -/
structure OpenAIToolCall where
  id : String
  type : String
  function : Option OpenAIFunctionCall
deriving DecidableEq

/-- `OpenAIAssistantMessage` (`content: string | null`, `none` = null). -/
structure OpenAIAssistantMessage where
  role : String
  content : Option String
  tool_calls : Option (List OpenAIToolCall) := none
deriving DecidableEq

/-- JSON encoding of a function call (for `JSON.stringify` diagnostics). -/
def functionCallToJson (fc : OpenAIFunctionCall) : Json :=
  .obj [("name", .str fc.name), ("arguments", fc.arguments)]

/-- JSON encoding of a tool call. -/
def toolCallJson (tc : OpenAIToolCall) : Json :=
  .obj ([("id", .str tc.id), ("type", .str tc.type)] ++
    (match tc.function with
      | some f => [("function", functionCallToJson f)]
      | none => []))

/-- JSON encoding of an assistant message. -/
def messageToJson (m : OpenAIAssistantMessage) : Json :=
  .obj ([("role", .str m.role),
    ("content", match m.content with | some s => .str s | none => .null)] ++
    (match m.tool_calls with
      | some tcs => [("tool_calls", .arr (tcs.map toolCallJson))]
      | none => []))

/-- `InteropProtocol`. -/
inductive InteropProtocol where
  | dmind_official
  | dmind_legacy
  | openai
deriving DecidableEq

/-- `OpenAIInteropResult` (the assistant-message/parse-error union). -/
inductive OpenAIInteropResult where
  | assistantMessage (message : OpenAIAssistantMessage) (protocol : InteropProtocol) (raw : String)
  | parseErr (code : SDKErrorCode) (message raw : String)
deriving DecidableEq

/-- `ensureOpenAIMessageShape` on the typed domain: plain-object,
null-or-string content and array-or-absent tool_calls hold by typing; the
role check remains. -/
def ensureOpenAIMessageShape (m : OpenAIAssistantMessage) : Bool :=
  m.role == "assistant"

/-- `normalizeAssistantOutputToOpenAI` specialised to a typed assistant
message (Direction B's call; the raw-string and completion-shaped inputs are
other entry points).  A typed message has no `choices` field, so the
completion-unwrapping branch does not apply. -/
def normalizeAssistantMessage (jstr : JsonStringify) (message : OpenAIAssistantMessage) :
    OpenAIInteropResult :=
  if ensureOpenAIMessageShape message then
    .assistantMessage message .openai (jstr (messageToJson message))
  else
    .parseErr .E_PARAM_INVALID "Input does not match OpenAI assistant message shape."
      (jstr (messageToJson message))

/-- The record-or-error union returned by `parseToolArgs` (the source
distinguishes the two by a duck-typing check on `type == "parse_error"`;
the embedding uses a tagged union). -/
inductive ArgsOrError where
  | args (fields : Obj)
  | err (code : SDKErrorCode) (message raw : String)
deriving DecidableEq

/-- `parseToolArgs`: accept a structured object, or trim/parse a JSON
string (empty string means empty args), rejecting non-strings and non-object
decodings with `E_JSON_INVALID`. -/
def parseToolArgs (jp : JsonParse) (jstr : JsonStringify) (argumentsRaw : Json) :
    ArgsOrError :=
  match argumentsRaw with
  | .obj fields => .args fields
  | .str text0 =>
    let text := jsTrim text0
    if text.data.isEmpty then .args []
    else
      match jp text with
      | none => .err .E_JSON_INVALID "OpenAI tool call arguments JSON parse failed." text0
      | some (.obj fields) => .args fields
      | some _ =>
        .err .E_JSON_INVALID "OpenAI tool call arguments must decode to a JSON object." text0
  | other =>
    .err .E_JSON_INVALID "OpenAI tool call `function.arguments` must be a JSON string."
      (jstr other)

/-- The tool-call-or-error union returned by `openAIToolCallToToolCallResult`. -/
inductive ToolCallOrError where
  | call (c : ToolCall)
  | err (code : SDKErrorCode) (message raw : String)
deriving DecidableEq

/-- `openAIToolCallToToolCallResult` (the source's single
`type !== "function" || !call.function` test is split over the option). -/
def openAIToolCallToToolCallResult (jp : JsonParse) (jstr : JsonStringify)
    (call : OpenAIToolCall) (rawMsg : OpenAIAssistantMessage) (options : ParseOptions) :
    ToolCallOrError :=
  match call.function with
  | none =>
    .err .E_PARAM_INVALID "OpenAI tool call must be type=function with function payload."
      (jstr (messageToJson rawMsg))
  | some fc =>
    if call.type != "function" then
      .err .E_PARAM_INVALID "OpenAI tool call must be type=function with function payload."
        (jstr (messageToJson rawMsg))
    else if (trimC fc.name.data).isEmpty then
      .err .E_PARAM_MISSING "OpenAI tool call missing function.name."
        (jstr (messageToJson rawMsg))
    else
      let allowedOk := match options.allowedTools with
        | some ts => ts.contains fc.name
        | none => true
      if !allowedOk then
        (let nm := fc.name;
          .err .E_TOOL_UNKNOWN s!"Unknown tool: {nm}." (jstr (messageToJson rawMsg)))
      else
        match parseToolArgs jp jstr fc.arguments with
        | .err c m r => .err c m r
        | .args fields => .call ⟨fc.name, fields, jstr (messageToJson rawMsg), .official⟩

/-- `encodeXml` (src/src/utils.ts: five chained global replacements). -/
def encodeXml (value : List Char) : List Char :=
  replaceAllSub "'".data "&apos;".data
    (replaceAllSub "\"".data "&quot;".data
      (replaceAllSub ">".data "&gt;".data
        (replaceAllSub "<".data "&lt;".data
          (replaceAllSub "&".data "&amp;".data value))))

/-- `serializeValue` (src/unnamed/part_004 xml helpers): strings are
entity-encoded, numbers/booleans/null stringified, objects stringified then
encoded. -/
def serializeValue (jstr : JsonStringify) (value : Json) : String :=
  match value with
  | .str s => ⟨encodeXml s.data⟩
  | .num q => toString q
  | .bool b => if b then "true" else "false"
  | .null => "null"
  | v => ⟨encodeXml (jstr v).data⟩

/-- `toolCallToLegacyXml`. -/
def toolCallToLegacyXml (jstr : JsonStringify) (call : ToolCall) : String :=
  let params := String.join (call.args.map fun kv =>
    "<parameter name=\"" ++ String.mk (encodeXml kv.1.data) ++ "\">" ++
      serializeValue jstr kv.2 ++ "</parameter>")
  "<function_calls><invoke name=\"" ++ call.tool ++ "\">" ++ params ++
    "</invoke></function_calls>"

/-- The raw-string-or-error result of Direction B. -/
inductive DMindRawResult where
  | raw (raw : String)
  | parseErr (code : SDKErrorCode) (message raw : String)
deriving DecidableEq

/-- `openAIAssistantMessageToDMindRaw`: normalize, unwrap `tool_calls ?? []`
and `content ?? ""`, emit content directly for zero tool calls, reject more
than one with `E_INVOKE_COUNT`, reject mixed content with
`E_WRONG_PROTOCOL`, then convert the single call and re-encode it in the
requested wire protocol. -/
def openAIAssistantMessageToDMindRaw (jp : JsonParse) (jstr : JsonStringify)
    (message : OpenAIAssistantMessage) (protocol : Protocol) (options : ParseOptions) :
    DMindRawResult :=
  match normalizeAssistantMessage jstr message with
  | .parseErr c m r => .parseErr c m r
  | .assistantMessage normMsg _ _ =>
    let toolCalls := normMsg.tool_calls.getD []
    let content := normMsg.content.getD ""
    if toolCalls.length = 0 then .raw content
    else if toolCalls.length != 1 then
      let n := toolCalls.length
      .parseErr .E_INVOKE_COUNT s!"DMind protocol only supports exactly 1 tool call, got {n}."
        (jstr (messageToJson message))
    else if (trimC content.data).length > 0 then
      .parseErr .E_WRONG_PROTOCOL "DMind tool-call output cannot mix text content with tool_calls."
        (jstr (messageToJson message))
    else
      match toolCalls with
      | [c0] =>
        (match openAIToolCallToToolCallResult jp jstr c0 message options with
          | .err cc mm rr => .parseErr cc mm rr
          | .call parsedCall =>
            if protocol = .official then
              .raw (OFFICIAL_START ++ "call:" ++ parsedCall.tool ++
                jstr (.obj parsedCall.args) ++ OFFICIAL_END)
            else .raw (toolCallToLegacyXml jstr parsedCall))
      | _ => .raw content


/-- `parseToolArgs` never produces `E_INVOKE_COUNT`. -/
theorem parseToolArgs_ne_invoke_count (jp : JsonParse) (jstr : JsonStringify)
    (a : Json) (m r : String) :
    parseToolArgs jp jstr a ≠ .err .E_INVOKE_COUNT m r := by
  intro h
  unfold parseToolArgs at h
  cases a with
  | null => simp at h
  | bool b => simp at h
  | num q => simp at h
  | arr es => simp at h
  | obj fs => simp at h
  | str s =>
    dsimp only at h
    by_cases hemp : (jsTrim s).data.isEmpty = true
    · rw [if_pos hemp] at h
      simp at h
    · rw [if_neg hemp] at h
      rcases hjp : jp (jsTrim s) with _ | j <;> rw [hjp] at h
      · simp at h
      · cases j <;> simp at h

/-- `openAIToolCallToToolCallResult` never produces `E_INVOKE_COUNT`. -/
theorem toolCallConvert_ne_invoke_count (jp : JsonParse) (jstr : JsonStringify)
    (call : OpenAIToolCall) (rawMsg : OpenAIAssistantMessage) (options : ParseOptions)
    (m r : String) :
    openAIToolCallToToolCallResult jp jstr call rawMsg options ≠ .err .E_INVOKE_COUNT m r := by
  intro h
  unfold openAIToolCallToToolCallResult at h
  rcases hf : call.function with _ | fc <;> rw [hf] at h
  · simp at h
  · dsimp only at h
    by_cases ht : (call.type != "function") = true
    · rw [if_pos ht] at h
      simp at h
    · rw [if_neg ht] at h
      by_cases hn : ((trimC fc.name.data).isEmpty = true)
      · rw [if_pos hn] at h
        simp at h
      · rw [if_neg hn] at h
        rcases hopt : options.allowedTools with _ | ts <;> rw [hopt] at h <;> dsimp only at h
        · rcases hpta : parseToolArgs jp jstr fc.arguments with fields | ⟨c, mm, rr⟩
          · rw [hpta] at h
            simp at h
          · rw [hpta] at h
            simp at h
            obtain ⟨hc, hm, hr⟩ := h
            subst hc
            exact parseToolArgs_ne_invoke_count jp jstr fc.arguments mm rr hpta
        · by_cases hcon : ts.contains fc.name = true
          · rcases hpta : parseToolArgs jp jstr fc.arguments with fields | ⟨c, mm, rr⟩
            · rw [hpta, hcon] at h
              simp at h
            · rw [hpta, hcon] at h
              simp at h
              obtain ⟨hc, hm, hr⟩ := h
              subst hc
              exact parseToolArgs_ne_invoke_count jp jstr fc.arguments mm rr hpta
          · rw [Bool.not_eq_true] at hcon
            rw [hcon] at h
            simp at h

/-- Claim C2 (amended): Direction B returns `E_INVOKE_COUNT` exactly when
the assistant message's `tool_calls` array has two or more entries.  An
absent or empty `tool_calls` array does not error: the message content is
emitted as the raw protocol string (spec section 4.4). -/
theorem interop_rejects_multiple_tool_calls (jp : JsonParse) (jstr : JsonStringify)
    (message : OpenAIAssistantMessage) (protocol : Protocol) (options : ParseOptions)
    (hrole : message.role = "assistant") :
    (∃ m r, openAIAssistantMessageToDMindRaw jp jstr message protocol options =
        .parseErr .E_INVOKE_COUNT m r) ↔
      2 ≤ (message.tool_calls.getD []).length := by
  have hnorm : normalizeAssistantMessage jstr message =
      .assistantMessage message .openai (jstr (messageToJson message)) := by
    unfold normalizeAssistantMessage ensureOpenAIMessageShape
    rw [hrole]
    simp
  unfold openAIAssistantMessageToDMindRaw
  rw [hnorm]
  dsimp only
  rcases htc : message.tool_calls.getD [] with _ | ⟨c0, rest⟩
  · simp
  · rcases rest with _ | ⟨c1, rest2⟩
    · rw [if_neg (by simp), if_neg (by simp)]
      constructor
      · rintro ⟨m, r, h⟩
        by_cases hcnt : (trimC (message.content.getD "").data).length > 0
        · rw [if_pos hcnt] at h
          simp at h
        · rw [if_neg hcnt] at h
          dsimp only at h
          rcases hconv : openAIToolCallToToolCallResult jp jstr c0 message options with
            ⟨pc⟩ | ⟨cc, mm, rr⟩
          · rw [hconv] at h
            dsimp only at h
            by_cases hp : protocol = Protocol.official
            · rw [if_pos hp] at h
              simp at h
            · rw [if_neg hp] at h
              simp at h
          · rw [hconv] at h
            simp at h
            obtain ⟨hcc, hmm, hrr⟩ := h
            subst hcc
            exact absurd hconv (toolCallConvert_ne_invoke_count jp jstr c0 message options mm rr)
      · intro h2
        exact absurd h2 (by norm_num)
    · constructor
      · intro _
        simp only [List.length_cons]
        omega
      · intro _
        exact ⟨_, _, by
          rw [if_neg (by simp),
            if_pos (by simp only [bne_iff_ne, ne_eq, List.length_cons]; omega)]⟩

/-- Counterexample to claim C2 as stated: a shape-valid assistant message
with zero tool calls yields the content as a raw string, not an
`E_INVOKE_COUNT` parse error. -/
theorem interop_zero_tool_calls_counterexample :
    openAIAssistantMessageToDMindRaw (fun _ => none) (fun _ => "")
      ⟨"assistant", some "hi", some []⟩ .official {} = .raw "hi" ∧
    ∀ m r, openAIAssistantMessageToDMindRaw (fun _ => none) (fun _ => "")
      ⟨"assistant", some "hi", some []⟩ .official {} ≠ .parseErr .E_INVOKE_COUNT m r :=
  ⟨rfl, fun _ _ h => by
    rw [show openAIAssistantMessageToDMindRaw (fun _ => none) (fun _ => "")
      ⟨"assistant", some "hi", some []⟩ .official {} = .raw "hi" from rfl] at h
    exact DMindRawResult.noConfusion h⟩

/-- Concrete instance of `interop_rejects_multiple_tool_calls` with two tool
calls. -/
theorem interop_rejects_multiple_tool_calls_witness :
    ∃ m r, openAIAssistantMessageToDMindRaw (fun _ => none) (fun _ => "")
      ⟨"assistant", none, some [⟨"a", "function", some ⟨"SEARCH_TOKEN", .str ""⟩⟩,
        ⟨"b", "function", some ⟨"SEARCH_TOKEN", .str ""⟩⟩]⟩ .official {} =
      .parseErr .E_INVOKE_COUNT m r :=
  (interop_rejects_multiple_tool_calls (fun _ => none) (fun _ => "")
    ⟨"assistant", none, some [⟨"a", "function", some ⟨"SEARCH_TOKEN", .str ""⟩⟩,
      ⟨"b", "function", some ⟨"SEARCH_TOKEN", .str ""⟩⟩]⟩ .official {} rfl).mpr (by decide)

/-! ## Run loop (src/unnamed/part_003)

The source's `while (true)` loop terminates on every input: each iteration
either returns or increments `toolHops`, and a tool call with
`toolHops >= maxToolHops` returns, so at most `maxToolHops + 1` iterations
run.  The embedding makes that bound explicit as a fuel argument; the
canonical fuel `maxToolHops + 1` is never exhausted
(`runLoopAux_fuel_irrelevant`), so the fuel-zero clause is unreachable. -/

/-- `Message` (src/src/types.ts; the `Role` union is modelled as the role
string). -/
structure Message where
  role : String
  content : String
deriving DecidableEq

/-- The `SDKCore` collaborator interface consumed by `runLoop` (generation
and execution are the caller's asynchronous collaborators, modelled as pure
functions of their inputs). -/
structure SDKCore where
  generate : List Message → String
  parse : String → Option ProtocolMode → ParsedResult
  validate : ToolCall → BasicValidationResult
  execute : ToolCall → Json
  wrapResponse : Json → String

/-- `RunLoopOptions`. -/
structure RunLoopOptions where
  maxToolHops : Option Nat := none
  mode : Option ProtocolMode := none
  functionResponseRole : Option String := none

/-- `RunLoopResult`. -/
structure RunLoopResult where
  final : ParsedResult
  messages : List Message
  toolHops : Nat
deriving DecidableEq

/-- The loop's local `toParseError` for the hop bound. -/
def runLoopHopError (raw : String) (maxToolHops : Nat) : ParsedResult :=
  .parseError .E_INVOKE_COUNT s!"Tool call count exceeds maxToolHops={maxToolHops}." raw

/-- One transcription of the loop body per remaining-fuel step; the fuel-0
clause behaves like the hop-limited iteration and is unreachable at the
canonical fuel. -/
def runLoopAux (sdk : SDKCore) (mode : Option ProtocolMode) (maxToolHops : Nat)
    (role : String) : Nat → List Message → Nat → RunLoopResult
  | 0, history, toolHops =>
    let raw := sdk.generate history
    let history' := history ++ [⟨"assistant", raw⟩]
    match sdk.parse raw mode with
    | .toolCall _ _ _ _ => ⟨runLoopHopError raw maxToolHops, history', toolHops⟩
    | parsed => ⟨parsed, history', toolHops⟩
  | fuel + 1, history, toolHops =>
    let raw := sdk.generate history
    let history' := history ++ [⟨"assistant", raw⟩]
    match sdk.parse raw mode with
    | .toolCall t a r p =>
      if maxToolHops ≤ toolHops then ⟨runLoopHopError raw maxToolHops, history', toolHops⟩
      else
        match sdk.validate ⟨t, a, r, p⟩ with
        | .invalid errs =>
          ⟨.parseError .E_PARAM_INVALID (String.intercalate "; " errs) raw, history', toolHops⟩
        | .ok =>
          let result := sdk.execute ⟨t, a, r, p⟩
          let payload := sdk.wrapResponse (.obj [("status", .str "ok"), ("result", result)])
          runLoopAux sdk mode maxToolHops role fuel (history' ++ [⟨role, payload⟩]) (toolHops + 1)
    | parsed => ⟨parsed, history', toolHops⟩

/-- `runLoop` with its defaults (`maxToolHops ?? 3`,
`functionResponseRole ?? "user"`). -/
def runLoop (sdk : SDKCore) (messages : List Message) (options : RunLoopOptions) :
    RunLoopResult :=
  runLoopAux sdk options.mode (options.maxToolHops.getD 3)
    (options.functionResponseRole.getD "user")
    (options.maxToolHops.getD 3 + 1) messages 0


/-- Any fuel at least `maxToolHops + 1 - toolHops` gives the same result:
the loop performs at most that many further iterations. -/
theorem runLoopAux_fuel_irrelevant (sdk : SDKCore) (mode : Option ProtocolMode)
    (maxToolHops : Nat) (role : String) :
    ∀ fuel1 fuel2 history toolHops,
      maxToolHops + 1 ≤ toolHops + fuel1 → maxToolHops + 1 ≤ toolHops + fuel2 →
      runLoopAux sdk mode maxToolHops role fuel1 history toolHops =
        runLoopAux sdk mode maxToolHops role fuel2 history toolHops := by
  intro fuel1
  induction fuel1 with
  | zero =>
    intro fuel2 history toolHops h1 h2
    have hhop : maxToolHops ≤ toolHops := by omega
    cases fuel2 with
    | zero => rfl
    | succ f2 =>
      unfold runLoopAux
      cases hp : sdk.parse (sdk.generate history) mode <;> simp [hp, hhop]
  | succ f1 ih =>
    intro fuel2 history toolHops h1 h2
    cases fuel2 with
    | zero =>
      have hhop : maxToolHops ≤ toolHops := by omega
      unfold runLoopAux
      cases hp : sdk.parse (sdk.generate history) mode <;> simp [hp, hhop]
    | succ f2 =>
      unfold runLoopAux
      cases hp : sdk.parse (sdk.generate history) mode <;> simp only [hp]
      case toolCall t a r p =>
        by_cases hhop : maxToolHops ≤ toolHops
        · simp [hhop]
        · simp only [hhop, reduceIte, if_neg hhop]
          cases hv : sdk.validate ⟨t, a, r, p⟩ with
          | invalid errs => rfl
          | ok =>
            dsimp only
            exact ih f2 _ (toolHops + 1) (by omega) (by omega)

/-- The recorded hop count never exceeds the bound. -/
theorem runLoopAux_toolHops_le (sdk : SDKCore) (mode : Option ProtocolMode)
    (maxToolHops : Nat) (role : String) :
    ∀ fuel history toolHops, toolHops ≤ maxToolHops →
      (runLoopAux sdk mode maxToolHops role fuel history toolHops).toolHops ≤ maxToolHops := by
  intro fuel
  induction fuel with
  | zero =>
    intro history toolHops hle
    unfold runLoopAux
    cases hp : sdk.parse (sdk.generate history) mode <;> simp [hp, hle]
  | succ f ih =>
    intro history toolHops hle
    unfold runLoopAux
    cases hp : sdk.parse (sdk.generate history) mode <;> simp only [hp]
    case toolCall t a r p =>
      by_cases hhop : maxToolHops ≤ toolHops
      · simp [hhop, hle]
      · simp only [if_neg hhop]
        cases hv : sdk.validate ⟨t, a, r, p⟩ with
        | invalid errs => simpa using hle
        | ok =>
          dsimp only
          exact ih _ (toolHops + 1) (by omega)
    case text t r => simpa using hle
    case parseError c m r => simpa using hle

/-- Under a collaborator that always emits a valid tool call, the loop runs
the remaining hops to the bound, executes one tool per hop (two transcript
messages per executed hop plus the final assistant turn), and ends with the
synthetic `E_INVOKE_COUNT` hop-limit error. -/
theorem runLoopAux_always_tool (sdk : SDKCore) (mode : Option ProtocolMode)
    (maxToolHops : Nat) (role : String)
    (hGen : ∀ h, (sdk.parse (sdk.generate h) mode).isToolCallB = true)
    (hVal : ∀ c, sdk.validate c = .ok) :
    ∀ fuel history toolHops, toolHops + fuel = maxToolHops + 1 → toolHops ≤ maxToolHops →
      ∃ m r hist, runLoopAux sdk mode maxToolHops role fuel history toolHops =
        ⟨.parseError .E_INVOKE_COUNT m r, hist, maxToolHops⟩ ∧
        hist.length = history.length + 2 * (maxToolHops - toolHops) + 1 := by
  intro fuel
  induction fuel with
  | zero =>
    intro history toolHops hinv hle
    omega
  | succ f ih =>
    intro history toolHops hinv hle
    have hgen := hGen history
    rcases hp : sdk.parse (sdk.generate history) mode with _ | ⟨t, a, r, p⟩ | _
    · rw [hp] at hgen; cases hgen
    · by_cases hhop : maxToolHops ≤ toolHops
      · have hmax : toolHops = maxToolHops := by omega
        refine ⟨s!"Tool call count exceeds maxToolHops={maxToolHops}.", sdk.generate history,
          history ++ [⟨"assistant", sdk.generate history⟩], ?_, ?_⟩
        · unfold runLoopAux
          simp only [hp, if_pos hhop]
          rw [hmax]
          rfl
        · rw [hmax]
          simp
      · have hrec := ih (history ++ [⟨"assistant", sdk.generate history⟩] ++
          [⟨role, sdk.wrapResponse (.obj [("status", .str "ok"),
            ("result", sdk.execute ⟨t, a, r, p⟩)])⟩]) (toolHops + 1)
          (by omega) (by omega)
        obtain ⟨m, r', hist, hres, hlen⟩ := hrec
        refine ⟨m, r', hist, ?_, ?_⟩
        · unfold runLoopAux
          simp only [hp, if_neg hhop, hVal ⟨t, a, r, p⟩]
          exact hres
        · rw [hlen]
          simp only [List.length_append, List.length_cons, List.length_nil]
          omega
    · rw [hp] at hgen; cases hgen

/-- Claim C8: with a generation collaborator that always emits a valid tool
call, `runLoop` terminates with a `parse_error` final result of code
`E_INVOKE_COUNT`, `toolHops` equal to the configured bound
(`maxToolHops ?? 3`), and exactly `2 * bound + 1` messages appended to the
transcript (one handler execution per hop, none beyond the bound); moreover,
for every collaborator the recorded hop count is at most the bound and the
loop's result is insensitive to any extra fuel beyond `bound + 1`
iterations. -/
theorem run_loop_hop_bound (sdk : SDKCore) (messages : List Message) (options : RunLoopOptions)
    (hGen : ∀ h, (sdk.parse (sdk.generate h) options.mode).isToolCallB = true)
    (hVal : ∀ c, sdk.validate c = .ok) :
    (∃ m r, (runLoop sdk messages options).final = .parseError .E_INVOKE_COUNT m r) ∧
    (runLoop sdk messages options).toolHops = options.maxToolHops.getD 3 ∧
    (runLoop sdk messages options).messages.length =
      messages.length + 2 * options.maxToolHops.getD 3 + 1 ∧
    (∀ (sdk' : SDKCore) (messages' : List Message) (options' : RunLoopOptions),
      (runLoop sdk' messages' options').toolHops ≤ options'.maxToolHops.getD 3) ∧
    (∀ (sdk' : SDKCore) (messages' : List Message) (options' : RunLoopOptions) (extra : Nat),
      runLoopAux sdk' options'.mode (options'.maxToolHops.getD 3)
          (options'.functionResponseRole.getD "user")
          (options'.maxToolHops.getD 3 + 1 + extra) messages' 0 =
        runLoop sdk' messages' options') := by
  obtain ⟨m, r, hist, hres, hlen⟩ := runLoopAux_always_tool sdk options.mode
    (options.maxToolHops.getD 3) (options.functionResponseRole.getD "user") hGen hVal
    (options.maxToolHops.getD 3 + 1) messages 0 (by omega) (by omega)
  refine ⟨⟨m, r, ?_⟩, ?_, ?_, ?_, ?_⟩
  · unfold runLoop
    rw [hres]
  · unfold runLoop
    rw [hres]
  · unfold runLoop
    rw [hres]
    simpa using hlen
  · intro sdk' messages' options'
    exact runLoopAux_toolHops_le sdk' options'.mode (options'.maxToolHops.getD 3)
      (options'.functionResponseRole.getD "user") _ messages' 0 (by omega)
  · intro sdk' messages' options' extra
    unfold runLoop
    exact runLoopAux_fuel_irrelevant sdk' options'.mode (options'.maxToolHops.getD 3)
      (options'.functionResponseRole.getD "user") _ _ messages' 0 (by omega) (by omega)

/-- Concrete instance of `run_loop_hop_bound` with a constant tool-calling
collaborator and default options. -/
theorem run_loop_hop_bound_witness :
    ∃ m r, (runLoop ⟨fun _ => "g", fun _ _ => .toolCall "T" [] "g" .official,
      fun _ => .ok, fun _ => .null, fun _ => "w"⟩ [] {}).final =
        .parseError .E_INVOKE_COUNT m r :=
  (run_loop_hop_bound ⟨fun _ => "g", fun _ _ => .toolCall "T" [] "g" .official,
    fun _ => .ok, fun _ => .null, fun _ => "w"⟩ [] {} (fun _ => rfl) (fun _ => rfl)).1

/-! ## Streaming chunk decoding (src/unnamed/part_001)

`parseStreamingChunk` and its helpers decode one `data:` payload into a
camelCase chunk.  The generator wraps the decode in `try { yield ... }
catch { /* skip */ }`, so a JavaScript throw (property access on `null`,
`.map` on a non-array) is modelled as `none` and skips the frame, exactly
like a `JSON.parse` failure. -/

/-- JavaScript property access `o[k]` (`none` = `undefined`). -/
def jsGetField (o : Json) (k : String) : Option Json :=
  match o with
  | .obj fields => fields.lookup k
  | _ => none

/-- JavaScript truthiness on JSON values. -/
def jsTruthy : Json → Bool
  | .null => false
  | .bool b => b
  | .num q => !(q == 0)
  | .str s => !s.isEmpty
  | .arr _ => true
  | .obj _ => true

/-- Nullish coalescing `v ?? d` on a possibly-absent field. -/
def jsNN (v : Option Json) (d : Json) : Json :=
  match v with
  | none => d
  | some .null => d
  | some x => x

/-- `TokenUsage` with `?? 0` field defaults. -/
structure TokenUsage where
  completionTokens : Json
  promptTokens : Json
  totalTokens : Json
deriving DecidableEq

/-- `ChatStreamingToolCall` (optional fields assigned only when the raw
field is not `undefined`). -/
structure ChatStreamingToolCall where
  index : Json
  id : Option Json := none
  type : Option Json := none
  function : Option (Option Json × Option Json) := none
deriving DecidableEq

/-- `ChatStreamingDelta`. -/
structure ChatStreamingDelta where
  role : Option Json := none
  content : Option Json := none
  toolCalls : Option (List ChatStreamingToolCall) := none
  reasoning : Option Json := none
  refusal : Option Json := none
deriving DecidableEq

/-- `ChatStreamingChoice`. -/
structure ChatStreamingChoice where
  index : Json
  delta : ChatStreamingDelta
  finishReason : Json
deriving DecidableEq

/-- `ChatStreamingChunk`. -/
structure ChatStreamingChunk where
  id : Json
  object : String
  created : Json
  model : Json
  choices : List ChatStreamingChoice
  usage : Option TokenUsage
deriving DecidableEq

/-- `parseStreamingToolCall` (a `null` element throws). -/
def parseStreamingToolCall (raw : Json) : Option ChatStreamingToolCall :=
  match raw with
  | .null => none
  | _ =>
    some {
      index := jsNN (jsGetField raw "index") (.num 0)
      id := jsGetField raw "id"
      type := jsGetField raw "type"
      function := match jsGetField raw "function" with
        | some f =>
          if jsTruthy f then some (jsGetField f "name", jsGetField f "arguments")
          else none
        | none => none }

/-- `parseStreamingDelta` (`tool_calls` is mapped only when present as a
nonempty array; a non-array with truthy `length` throws). -/
def parseStreamingDelta (raw : Json) : Option ChatStreamingDelta :=
  match raw with
  | .null => none
  | _ => do
    let toolCalls ← match jsGetField raw "tool_calls" with
      | some (.arr xs) =>
        if xs.length == 0 then some none
        else (xs.mapM parseStreamingToolCall).map some
      | some (.str s) => if s.isEmpty then some none else none
      | _ => some none
    pure {
      role := jsGetField raw "role"
      content := jsGetField raw "content"
      toolCalls := toolCalls
      reasoning := jsGetField raw "reasoning"
      refusal := jsGetField raw "refusal" }

/-- `parseStreamingChoice`. -/
def parseStreamingChoice (raw : Json) : Option ChatStreamingChoice :=
  match raw with
  | .null => none
  | _ => do
    let delta ← parseStreamingDelta (jsNN (jsGetField raw "delta") (.obj []))
    pure {
      index := jsNN (jsGetField raw "index") (.num 0)
      delta := delta
      finishReason := jsNN (jsGetField raw "finish_reason") .null }

/-- `parseUsage` (`!raw` guard by truthiness). -/
def parseUsage (raw : Option Json) : Option TokenUsage :=
  match raw with
  | none => none
  | some u =>
    if jsTruthy u then
      some {
        completionTokens := jsNN (jsGetField u "completion_tokens") (.num 0)
        promptTokens := jsNN (jsGetField u "prompt_tokens") (.num 0)
        totalTokens := jsNN (jsGetField u "total_tokens") (.num 0) }
    else none

/-- `parseStreamingChunk` (`choices ?? []` mapped; a truthy non-array
throws). -/
def parseStreamingChunk (raw : Json) : Option ChatStreamingChunk :=
  match raw with
  | .null => none
  | _ => do
    let choices ← match jsGetField raw "choices" with
      | some (.arr xs) => xs.mapM parseStreamingChoice
      | some .null => some []
      | none => some []
      | some v => if jsTruthy v then none else some []
    pure {
      id := jsNN (jsGetField raw "id") (.str "")
      object := "chat.completion.chunk"
      created := jsNN (jsGetField raw "created") (.num 0)
      model := jsNN (jsGetField raw "model") (.str "")
      choices := choices
      usage := parseUsage (jsGetField raw "usage") }

/-! ## SSE async iterator (src/unnamed/part_001, `parseSSEStream`)

The transport is modelled as the list of decoded text chunks delivered by
`reader.read()`; the generator's yields are collected into the event list.
`done = true` records that the `[DONE]` sentinel returned from the
generator: nothing after it is processed and the final trailing-buffer
flush is skipped. -/

/-- The accumulator state: emitted events, the done flag, and the partial
trailing line buffered across reads. -/
structure SSEState where
  events : List ChatStreamingChunk
  done : Bool
  buffer : List Char
deriving DecidableEq

/-- Process one complete line (a no-op once done): blank and comment lines
are skipped, `data:` frames are trimmed, the `[DONE]` sentinel terminates,
and payloads that decode are emitted (malformed ones skipped). -/
def processLine (jp : JsonParse) (st : SSEState) (line : List Char) : SSEState :=
  if st.done then st
  else
    let trimmed := trimC line
    if trimmed.isEmpty || (":".data.isPrefixOf trimmed) then st
    else if "data:".data.isPrefixOf trimmed then
      let payload := trimC (trimmed.drop "data:".data.length)
      if payload == "[DONE]".data then { st with done := true }
      else
        match jp ⟨payload⟩ with
        | none => st
        | some j =>
          match parseStreamingChunk j with
          | none => st
          | some chunk => { st with events := st.events ++ [chunk] }
    else st

/-- Process one transport read: append to the buffer, split on newlines,
keep the unterminated tail as the new buffer and run the complete lines
through `processLine` (a no-op once done, as the generator has returned). -/
def processChunk (jp : JsonParse) (st : SSEState) (chunk : String) : SSEState :=
  if st.done then st
  else
    let segments := splitOnNlAux [] (st.buffer ++ chunk.data)
    let lines := segments.dropLast
    let newBuf := segments.getLastD []
    lines.foldl (processLine jp) { st with buffer := newBuf }

/-- Run the whole stream of reads from the initial state. -/
def runSSE (jp : JsonParse) (chunks : List String) : SSEState :=
  chunks.foldl (processChunk jp) ⟨[], false, []⟩

/-- The final trailing-buffer flush at transport close: an unterminated
`data:` line is emitted unless empty or the `[DONE]` sentinel. -/
def trailingFlush (jp : JsonParse) (buf : List Char) : List ChatStreamingChunk :=
  let t := trimC buf
  if "data:".data.isPrefixOf t then
    let payload := trimC (t.drop "data:".data.length)
    if !payload.isEmpty && payload != "[DONE]".data then
      match jp ⟨payload⟩ with
      | none => []
      | some j =>
        match parseStreamingChunk j with
        | none => []
        | some chunk => [chunk]
    else []
  else []

/-- `parseSSEStream` as the list of yielded chunks: the collected events,
plus the trailing flush only when the stream was not `[DONE]`-terminated. -/
def parseSSEStream (jp : JsonParse) (chunks : List String) : List ChatStreamingChunk :=
  let st := runSSE jp chunks
  if st.done then st.events else st.events ++ trailingFlush jp st.buffer


/-- Reads after the generator has returned are not processed. -/
theorem processChunk_done (jp : JsonParse) (st : SSEState) (c : String)
    (h : st.done = true) : processChunk jp st c = st := by
  unfold processChunk
  rw [if_pos h]

/-- The done state absorbs any further reads. -/
theorem foldl_processChunk_done (jp : JsonParse) (st : SSEState) (h : st.done = true) :
    ∀ extra : List String, extra.foldl (processChunk jp) st = st := by
  intro extra
  induction extra with
  | nil => rfl
  | cons c rest ih =>
    rw [List.foldl_cons, processChunk_done jp st c h]
    exact ih

/-- Appending reads after a `[DONE]`-terminated prefix changes nothing. -/
theorem runSSE_append_done (jp : JsonParse) (chunks extra : List String)
    (h : (runSSE jp chunks).done = true) :
    runSSE jp (chunks ++ extra) = runSSE jp chunks := by
  have habs := foldl_processChunk_done jp (runSSE jp chunks) h extra
  unfold runSSE at habs ⊢
  rw [List.foldl_append]
  exact habs

/-- Claim C9: once a frame whose data payload is the `[DONE]` sentinel is
processed, iteration ends: the emitted events are exactly those before the
sentinel even if well-formed data frames follow, and the outstanding buffer
is discarded; processing a done-sentinel line terminates without emitting;
and the trailing-buffer flush at transport close never emits the
done-sentinel as a chunk. -/
theorem sse_done_terminates (jp : JsonParse) :
    (∀ chunks extra, (runSSE jp chunks).done = true →
      parseSSEStream jp (chunks ++ extra) = (runSSE jp chunks).events) ∧
    (∀ st line, st.done = false →
      "data:".data.isPrefixOf (trimC line) = true →
      trimC ((trimC line).drop "data:".data.length) = "[DONE]".data →
      processLine jp st line = { st with done := true }) ∧
    (∀ buf, trimC ((trimC buf).drop "data:".data.length) = "[DONE]".data →
      trailingFlush jp buf = []) := by
  refine ⟨?_, ?_, ?_⟩
  · intro chunks extra h
    unfold parseSSEStream
    rw [runSSE_append_done jp chunks extra h]
    rw [if_pos h]
  · intro st line hdone hpre hdoneline
    obtain ⟨t, ht⟩ := List.isPrefixOf_iff_prefix.mp hpre
    unfold processLine
    rw [if_neg (by simp [hdone])]
    rw [← ht] at hdoneline
    dsimp only
    rw [← ht]
    have hne : (("data:".data ++ t).isEmpty || (":".data.isPrefixOf ("data:".data ++ t))) =
        false := by
      exact rfl
    rw [hne]
    simp only [Bool.false_eq_true, reduceIte]
    rw [isPrefixOf_append_self]
    simp only [reduceIte]
    rw [List.drop_left] at hdoneline ⊢
    rw [hdoneline]
    simp
  · intro buf hpayload
    unfold trailingFlush
    by_cases hpre : "data:".data.isPrefixOf (trimC buf) = true
    · rw [if_pos hpre]
      rw [hpayload]
      simp
    · rw [if_neg hpre]

/-- Concrete instance of `sse_done_terminates`: a stream with one data
frame and a `[DONE]` frame, followed by a further well-formed frame that is
never emitted. -/
theorem sse_done_terminates_witness :
    (runSSE (fun _ => some (.obj [])) ["data: \x7b\x7d\n\ndata: [DONE]\n"]).done = true ∧
    parseSSEStream (fun _ => some (.obj []))
        (["data: \x7b\x7d\n\ndata: [DONE]\n"] ++ ["data: \x7b\x7d\n"]) =
      (runSSE (fun _ => some (.obj [])) ["data: \x7b\x7d\n\ndata: [DONE]\n"]).events :=
  ⟨by decide,
    (sse_done_terminates (fun _ => some (.obj []))).1
      ["data: \x7b\x7d\n\ndata: [DONE]\n"] ["data: \x7b\x7d\n"] (by decide)⟩
